import Mathlib

/-!
# Plugin validation and installation (`actor/pluginaction`, `command/plugin/shared`)

A shallow embedding of `actor/pluginaction/install.go`,
`command/plugin/shared/errors.go` and `command/plugin/shared/handle_error.go`,
followed by theorems about `Actor.GetAndValidatePlugin`,
`Actor.InstallPluginFromPath`, `Actor.CreateExecutableCopy` and `HandleError`.

Go values are embedded as follows.

* `string` is `String`, `[]T` is `List T`, and `append(s, x)` is `s ++ [x]`.
* A Go result pair `(configv3.Plugin, error)` is a Lean pair whose second
  component is `Option Error`; `none` is Go's `nil`.
* The `error` interface is the sum type `Error` of the error kinds that occur
  in the embedded files, plus one constructor for every other error value.
* The receiver `actor.config` is state: a function that calls a method of the
  Config Store takes the store and returns the store left behind.
* The file system and the persisted plugin registry are state as well: a
  function that reaches them takes a `World` and returns the world left behind.
-/

namespace configv3

/-- Modelled from the spec: `configv3.PluginCommand` is declared outside the
embedded files. A command has a `Name` and an optional `Alias`; the empty
string stands for no alias. -/
structure PluginCommand where
  Name : String
  Alias : String
  deriving DecidableEq, Repr, Inhabited

/-- Modelled from the spec: `configv3.Plugin` is declared outside the embedded
files; it has a `Name`, a `Version`, a `Location` and an ordered sequence of
`Commands`. The version type `V` (`configv3.PluginVersion`) is kept abstract:
the embedded code only renders it as a string. -/
structure Plugin (V : Type) where
  Name : String
  Version : V
  Location : String
  Commands : List PluginCommand
  deriving DecidableEq, Repr

/-- The Go zero value `configv3.Plugin{}`; `default` is the zero version. -/
def Plugin.zero (V : Type) [Inhabited V] : Plugin V :=
  { Name := "", Version := default, Location := "", Commands := [] }

end configv3

open configv3

namespace pluginaction

/-- Modelled from the spec: `pluginaction.PluginNotFoundError` is declared
outside the embedded files; `HandleError` reads its field `Name`. -/
structure PluginNotFoundError where
  Name : String
  deriving DecidableEq, Repr

/-- Modelled from the spec: `pluginaction.GettingPluginRepositoryError` is
declared outside the embedded files; `HandleError` reads `Name` and `Message`. -/
structure GettingPluginRepositoryError where
  Name : String
  Message : String
  deriving DecidableEq, Repr

/-- Modelled from the spec: `pluginaction.RepositoryNameTakenError` is declared
outside the embedded files; `HandleError` reads its field `Name`. -/
structure RepositoryNameTakenError where
  Name : String
  deriving DecidableEq, Repr

/-- Modelled from the spec: `pluginaction.RepositoryURLTakenError` is declared
outside the embedded files; `HandleError` reads `Name` and `URL`. -/
structure RepositoryURLTakenError where
  Name : String
  URL : String
  deriving DecidableEq, Repr

/-- Modelled from the spec: `pluginaction.AddPluginRepositoryError` is declared
outside the embedded files; `HandleError` reads `Name`, `URL` and `Message`. -/
structure AddPluginRepositoryError where
  Name : String
  URL : String
  Message : String
  deriving DecidableEq, Repr

/-- The error of a plugin that is missing a name or has 0 commands
(`install.go`, lines 27-31). -/
structure PluginInvalidError where
  Path : String
  deriving DecidableEq, Repr

/-- The message template of `PluginInvalidError` (`install.go`, lines 33-35). -/
def PluginInvalidError.Error (_e : PluginInvalidError) : String :=
  "File \x7b\x7b.Path\x7d\x7d is not a valid cf CLI plugin binary."

/-- The error of a plugin whose command names or aliases are already used
(`install.go`, lines 37-44). -/
structure PluginCommandsConflictError where
  PluginName : String
  PluginVersion : String
  CommandAliases : List String
  CommandNames : List String
  deriving DecidableEq, Repr

/-- The message of the actor's conflict error is empty (`install.go`, lines 46-48). -/
def PluginCommandsConflictError.Error (_e : PluginCommandsConflictError) : String :=
  ""

end pluginaction

namespace shared

/-- See `errors.go`, lines 8-10. -/
structure PluginNotFoundError where
  Name : String
  deriving DecidableEq, Repr

/-- See `errors.go`, line 22. -/
structure NoPluginRepositoriesError where
  deriving DecidableEq, Repr

/-- See `errors.go`, lines 34-37. -/
structure GettingPluginRepositoryError where
  Name : String
  Message : String
  deriving DecidableEq, Repr

/-- See `errors.go`, lines 49-51. -/
structure RepositoryNameTakenError where
  Name : String
  deriving DecidableEq, Repr

/-- See `errors.go`, lines 63-66. -/
structure RepositoryURLTakenError where
  Name : String
  URL : String
  deriving DecidableEq, Repr

/-- See `errors.go`, lines 79-83. -/
structure AddPluginRepositoryError where
  Name : String
  URL : String
  Message : String
  deriving DecidableEq, Repr

/-- See `errors.go`, lines 99-101. -/
structure FileNotFoundError where
  Path : String
  deriving DecidableEq, Repr

/-- See `errors.go`, lines 115-116. -/
structure PluginInstallationCancelled where
  deriving DecidableEq, Repr

/-- See `errors.go`, lines 128-131. -/
structure PluginInvalidError where
  Path : String
  WrappedErrMessage : String
  deriving DecidableEq, Repr

/-- See `errors.go`, lines 145-150. -/
structure PluginCommandsConflictError where
  PluginName : String
  PluginVersion : String
  CommandNames : List String
  CommandAliases : List String
  deriving DecidableEq, Repr

/-- See `errors.go`, lines 177-181. -/
structure PluginAlreadyInstalledError where
  Name : String
  Version : String
  Path : String
  deriving DecidableEq, Repr

end shared

/-- A value of Go's `error` interface: one constructor for each error type of
`actor/pluginaction` and `command/plugin/shared` that the embedded files name,
and `other` for an error of any other dynamic type (an I/O error, whatever the
Metadata Extractor reports), identified by its description. -/
inductive Error where
  | actorPluginNotFound (e : pluginaction.PluginNotFoundError)
  | actorGettingPluginRepository (e : pluginaction.GettingPluginRepositoryError)
  | actorRepositoryNameTaken (e : pluginaction.RepositoryNameTakenError)
  | actorRepositoryURLTaken (e : pluginaction.RepositoryURLTakenError)
  | actorAddPluginRepository (e : pluginaction.AddPluginRepositoryError)
  | actorPluginInvalid (e : pluginaction.PluginInvalidError)
  | actorPluginCommandsConflict (e : pluginaction.PluginCommandsConflictError)
  | sharedPluginNotFound (e : shared.PluginNotFoundError)
  | sharedNoPluginRepositories (e : shared.NoPluginRepositoriesError)
  | sharedGettingPluginRepository (e : shared.GettingPluginRepositoryError)
  | sharedRepositoryNameTaken (e : shared.RepositoryNameTakenError)
  | sharedRepositoryURLTaken (e : shared.RepositoryURLTakenError)
  | sharedAddPluginRepository (e : shared.AddPluginRepositoryError)
  | sharedFileNotFound (e : shared.FileNotFoundError)
  | sharedPluginInstallationCancelled (e : shared.PluginInstallationCancelled)
  | sharedPluginInvalid (e : shared.PluginInvalidError)
  | sharedPluginCommandsConflict (e : shared.PluginCommandsConflictError)
  | sharedPluginAlreadyInstalled (e : shared.PluginAlreadyInstalledError)
  | other (description : String)
  deriving DecidableEq, Repr

namespace pluginaction

/-- The interface `PluginMetadata` (`install.go`, lines 16-18): the Metadata
Extractor, a function from a path to a Go result pair. -/
structure PluginMetadata (V : Type) where
  GetMetadata : String → Plugin V × Option Error

/-- The interface `CommandList` (`install.go`, lines 22-25): the Command
Registry of built-in commands and aliases. -/
structure CommandList where
  HasCommand : String → Bool
  HasAlias : String → Bool

/-- A method of the Config Store, as recorded in the store's call log. -/
inductive ConfigCall (V : Type) where
  | Plugins
  | GetPlugin (name : String)
  | AddPlugin (plugin : Plugin V)
  | PluginHome
  | WritePluginConfig
  deriving DecidableEq, Repr

/-- Modelled from the spec: the interface behind `actor.config` is declared
outside the embedded files. The Config Store holds the installed plugins and
the plugin home directory; `calls` records, oldest first, every method that
was invoked on the store. -/
structure Config (V : Type) where
  plugins : List (Plugin V)
  pluginHome : String
  calls : List (ConfigCall V)
  deriving DecidableEq, Repr

/-- Modelled from the spec: `Plugins()` returns all installed plugins and
leaves them as they are; the call is recorded. -/
def Config.Plugins {V : Type} (config : Config V) : List (Plugin V) × Config V :=
  (config.plugins, { config with calls := config.calls ++ [ConfigCall.Plugins] })

/-- The receiver of the methods of `install.go`; `config` is its Config Store. -/
structure Actor (V : Type) where
  config : Config V
  deriving DecidableEq, Repr

/-- Modelled from the spec: the functions that `GetAndValidatePlugin` calls in
packages outside the embedded files. `VersionString` is
`configv3.PluginVersion.String` (the version is stringifiable) and `ToLower`
is `strings.ToLower` of the Go library. -/
structure Lib (V : Type) where
  VersionString : V → String
  ToLower : String → String

/-- One pass of the inner loop of the insertion sort: `x`, placed after the
ordered elements, is swapped towards the front while it is less than its
left neighbour. The ordered elements are given last first. -/
def insertLeft {α : Type} (less : α → α → Bool) (x : α) : List α → List α
  | [] => [x]
  | y :: ys => if less x y then y :: insertLeft less x ys else x :: y :: ys

/-- Modelled from the spec: `sort.Slice` of the Go library, given the slice
and the `less` closure on elements. The library returns the elements
rearranged so that none is less than the one before it, and leaves the order
of elements that compare equal open. This model is the insertion sort that the
library applies to short slices: each element in turn is moved left past the
elements it is less than. The theorems below use only that the result is an
ordered rearrangement. -/
def sortSlice {α : Type} (less : α → α → Bool) (data : List α) : List α :=
  (data.foldl (fun sorted x => insertLeft less x sorted) []).reverse

/-- The body of the loop over the commands of one installed plugin
(`install.go`, lines 130-137); `acc` is the pair
`(conflictingNames, conflictingAliases)`. -/
def scanInstalledCommand (command : PluginCommand) (acc : List String × List String)
    (installedCommand : PluginCommand) : List String × List String :=
  let conflictingNames :=
    if command.Name = installedCommand.Name ∨ command.Name = installedCommand.Alias then
      acc.1 ++ [command.Name]
    else acc.1
  let conflictingAliases :=
    if command.Alias ≠ "" ∧
        (command.Alias = installedCommand.Alias ∨ command.Alias = installedCommand.Name) then
      acc.2 ++ [command.Alias]
    else acc.2
  (conflictingNames, conflictingAliases)

/-- The body of the loop over the installed plugins (`install.go`, lines
123-138): a plugin with the name of the candidate is skipped. -/
def scanInstalledPlugin {V : Type} (pluginName : String) (command : PluginCommand)
    (acc : List String × List String) (installedPlugin : Plugin V) :
    List String × List String :=
  if pluginName = installedPlugin.Name then acc
  else installedPlugin.Commands.foldl (scanInstalledCommand command) acc

/-- The body of the loop over the commands of the candidate (`install.go`,
lines 114-139). -/
def scanCommand {V : Type} (commandList : CommandList) (installedPlugins : List (Plugin V))
    (pluginName : String) (acc : List String × List String) (command : PluginCommand) :
    List String × List String :=
  let conflictingNames :=
    if commandList.HasCommand command.Name || commandList.HasAlias command.Name then
      acc.1 ++ [command.Name]
    else acc.1
  let conflictingAliases :=
    if commandList.HasAlias command.Alias || commandList.HasCommand command.Alias then
      acc.2 ++ [command.Alias]
    else acc.2
  installedPlugins.foldl (scanInstalledPlugin pluginName command)
    (conflictingNames, conflictingAliases)

/-- The method `Actor.GetAndValidatePlugin` (`install.go`, lines 98-160). The
result is the Go result pair together with the actor after the call. -/
def Actor.GetAndValidatePlugin {V : Type} [Inhabited V] (lib : Lib V) (actor : Actor V)
    (pluginMetadata : PluginMetadata V) (commandList : CommandList) (path : String) :
    (Plugin V × Option Error) × Actor V :=
  match pluginMetadata.GetMetadata path with
  | (_, some err) => ((Plugin.zero V, some err), actor)
  | (plugin, none) =>
    if plugin.Name = "" ∨ plugin.Commands.length = 0 then
      ((Plugin.zero V, some (Error.actorPluginInvalid { Path := path })), actor)
    else
      let (installedPlugins, config) := actor.config.Plugins
      let actor : Actor V := { config := config }
      let (conflictingNames, conflictingAliases) :=
        plugin.Commands.foldl (scanCommand commandList installedPlugins plugin.Name) ([], [])
      let conflictingNames :=
        sortSlice (fun a b => decide (lib.ToLower a < lib.ToLower b)) conflictingNames
      let conflictingAliases :=
        sortSlice (fun a b => decide (lib.ToLower a < lib.ToLower b)) conflictingAliases
      if conflictingNames.length > 0 ∨ conflictingAliases.length > 0 then
        ((Plugin.zero V, some (Error.actorPluginCommandsConflict
          { PluginName := plugin.Name
            PluginVersion := lib.VersionString plugin.Version
            CommandNames := conflictingNames
            CommandAliases := conflictingAliases })), actor)
      else
        ((plugin, none), actor)

/-! ### The file system and the rest of the Config Store -/

/-- Modelled from the spec: a regular file, its byte content and its
permission bits. -/
structure File where
  content : List UInt8
  mode : Nat
  deriving DecidableEq, Repr

/-- A call that the embedded code makes on the operating system, through the
Go library, `fileutils` or the Config Store's persistence. -/
inductive OsCall where
  | MkdirAll (path : String) (perm : Nat)
  | TempFile (dir : String) (pattern : String)
  | Close (name : String)
  | CopyPathToPath (fromPath : String) (toPath : String)
  | Chmod (name : String) (mode : Nat)
  | WritePluginConfig
  deriving DecidableEq, Repr

/-- Modelled from the spec: what the embedded code reaches outside the
process. `files` maps a path to the file there, `tempSuffix` is the random
part of the name that the next `TempFile` draws, `fault` gives for each call
the error with which the system refuses it (`none` when it does not), and
`pluginConfig` is the plugin registry as persisted on disk. -/
structure World (V : Type) where
  files : String → Option File
  tempSuffix : String
  fault : OsCall → Option Error
  pluginConfig : List (Plugin V)

/-- Modelled from the spec: `filepath.Join` of the Go library on a directory
and a name, as in the layouts `<PluginHome>/temp/<random>` and
`<PluginHome>/<PluginName>`. -/
def filepathJoin (dir name : String) : String :=
  dir ++ "/" ++ name

/-- Modelled from the spec: `os.MkdirAll`, which creates the directory if it
is absent; it fails when the system refuses the call. Directories are not
recorded in `files`. -/
def World.MkdirAll {V : Type} (world : World V) (path : String) (perm : Nat) :
    Option Error × World V :=
  (world.fault (OsCall.MkdirAll path perm), world)

/-- Modelled from the spec: `ioutil.TempFile`, which creates a uniquely named
empty file in `dir` by exclusive create and returns its name; it fails when
the system refuses the call or the drawn name is taken. -/
def World.TempFile {V : Type} (world : World V) (dir pattern : String) :
    (String × Option Error) × World V :=
  match world.fault (OsCall.TempFile dir pattern) with
  | some err => (("", some err), world)
  | none =>
    match world.files (filepathJoin dir (pattern ++ world.tempSuffix)) with
    | some _ => (("", some (Error.other "file exists")), world)
    | none =>
      ((filepathJoin dir (pattern ++ world.tempSuffix), none),
        { world with
          files := fun p =>
            if p = filepathJoin dir (pattern ++ world.tempSuffix) then
              some { content := [], mode := 0o600 }
            else world.files p })

/-- Modelled from the spec: `Close` on an open file; it fails when the system
refuses the call. -/
def World.Close {V : Type} (world : World V) (name : String) : Option Error × World V :=
  (world.fault (OsCall.Close name), world)

/-- Modelled from the spec: `fileutils.CopyPathToPath`, which copies the full
byte content of the file at `fromPath`, with its permission bits, onto
`toPath`, overwriting what is there; it fails when the system refuses the call
or there is no file at `fromPath`. -/
def World.CopyPathToPath {V : Type} (world : World V) (fromPath toPath : String) :
    Option Error × World V :=
  match world.fault (OsCall.CopyPathToPath fromPath toPath) with
  | some err => (some err, world)
  | none =>
    match world.files fromPath with
    | none => (some (Error.other "no such file or directory"), world)
    | some src =>
      (none, { world with files := fun p => if p = toPath then some src else world.files p })

/-- Modelled from the spec: `os.Chmod`, which sets the permission bits of the
file at `name`; it fails when the system refuses the call or there is no file
at `name`. -/
def World.Chmod {V : Type} (world : World V) (name : String) (mode : Nat) :
    Option Error × World V :=
  match world.fault (OsCall.Chmod name mode) with
  | some err => (some err, world)
  | none =>
    match world.files name with
    | none => (some (Error.other "no such file or directory"), world)
    | some file =>
      (none,
        { world with
          files := fun p => if p = name then some { file with mode := mode } else world.files p })

/-- Modelled from the spec: `PluginHome()` returns the base directory for the
staged and the installed binaries; the call is recorded. -/
def Config.PluginHome {V : Type} (config : Config V) : String × Config V :=
  (config.pluginHome, { config with calls := config.calls ++ [ConfigCall.PluginHome] })

/-- Insert `plugin` or, when a plugin of its name is present, put it in that
plugin's place. -/
def upsertPlugin {V : Type} (plugin : Plugin V) : List (Plugin V) → List (Plugin V)
  | [] => [plugin]
  | p :: rest => if p.Name = plugin.Name then plugin :: rest else p :: upsertPlugin plugin rest

/-- Modelled from the spec: `AddPlugin(Plugin)` is an upsert by name into the
installed plugins; the call is recorded. -/
def Config.AddPlugin {V : Type} (config : Config V) (plugin : Plugin V) : Config V :=
  { config with
    plugins := upsertPlugin plugin config.plugins
    calls := config.calls ++ [ConfigCall.AddPlugin plugin] }

/-- Modelled from the spec: `WritePluginConfig()` persists the installed
plugins to durable storage; it fails, and leaves the storage as it is, when
the system refuses the call. The call is recorded. -/
def Config.WritePluginConfig {V : Type} (config : Config V) (world : World V) :
    Option Error × Config V × World V :=
  match world.fault OsCall.WritePluginConfig with
  | some err =>
    (some err, { config with calls := config.calls ++ [ConfigCall.WritePluginConfig] }, world)
  | none =>
    (none, { config with calls := config.calls ++ [ConfigCall.WritePluginConfig] },
      { world with pluginConfig := config.plugins })

/-- The method `Actor.CreateExecutableCopy` (`install.go`, lines 55-82). The
result is the Go result pair together with the actor and the world after the
call. -/
def Actor.CreateExecutableCopy {V : Type} (actor : Actor V) (world : World V) (path : String) :
    (String × Option Error) × Actor V × World V :=
  let (pluginHome, config) := actor.config.PluginHome
  let actor : Actor V := { config := config }
  let pluginTemp := filepathJoin pluginHome "temp"
  match world.MkdirAll pluginTemp 0o700 with
  | (some err, world) => (("", some err), actor, world)
  | (none, world) =>
    match world.TempFile pluginTemp "" with
    | ((_, some err), world) => (("", some err), actor, world)
    | ((tempFile, none), world) =>
      match world.Close tempFile with
      | (some err, world) => (("", some err), actor, world)
      | (none, world) =>
        match world.CopyPathToPath path tempFile with
        | (some err, world) => (("", some err), actor, world)
        | (none, world) =>
          match world.Chmod tempFile 0o700 with
          | (some err, world) => (("", some err), actor, world)
          | (none, world) => ((tempFile, none), actor, world)

/-- The method `Actor.InstallPluginFromPath` (`install.go`, lines 162-184).
The result is the returned error together with the actor and the world after
the call. -/
def Actor.InstallPluginFromPath {V : Type} (actor : Actor V) (world : World V) (path : String)
    (plugin : Plugin V) : Option Error × Actor V × World V :=
  let (pluginHome, config) := actor.config.PluginHome
  let installPath := filepathJoin pluginHome plugin.Name
  match world.CopyPathToPath path installPath with
  | (some err, world) => (some err, { config := config }, world)
  | (none, world) =>
    match world.Chmod installPath 0o755 with
    | (some err, world) => (some err, { config := config }, world)
    | (none, world) =>
      let plugin : Plugin V := { plugin with Location := installPath }
      let config := config.AddPlugin plugin
      match config.WritePluginConfig world with
      | (some err, config, world) => (some err, { config := config }, world)
      | (none, config, world) => (none, { config := config }, world)

end pluginaction

namespace shared

/-- The template for conflicting names and aliases (`errors.go`, line 155). -/
def namesAndAliasesTemplate : String :=
  "Plugin \x7b\x7b.PluginName\x7d\x7d v\x7b\x7b.PluginVersion\x7d\x7d could not be installed as it contains commands with names and aliases that are already used: \x7b\x7b.CommandNamesAndAliases\x7d\x7d."

/-- The template for conflicting names (`errors.go`, line 157). -/
def namesTemplate : String :=
  "Plugin \x7b\x7b.PluginName\x7d\x7d v\x7b\x7b.PluginVersion\x7d\x7d could not be installed as it contains commands with names that are already used: \x7b\x7b.CommandNames\x7d\x7d."

/-- The template for conflicting aliases (`errors.go`, line 159). -/
def aliasesTemplate : String :=
  "Plugin \x7b\x7b.PluginName\x7d\x7d v\x7b\x7b.PluginVersion\x7d\x7d could not be installed as it contains commands with aliases that are already used: \x7b\x7b.CommandAliases\x7d\x7d."

/-- The template of the default branch (`errors.go`, line 161). -/
def defaultTemplate : String :=
  "Plugin \x7b\x7b.PluginName\x7d\x7d v\x7b\x7b.PluginVersion\x7d\x7d could not be installed as it contains commands with names or aliases that are already used."

/-- The message template of the command-level conflict error (`errors.go`,
lines 152-163), chosen by which of the two lists are non-empty. -/
def PluginCommandsConflictError.Error (e : PluginCommandsConflictError) : String :=
  if e.CommandNames.length > 0 ∧ e.CommandAliases.length > 0 then namesAndAliasesTemplate
  else if e.CommandNames.length > 0 then namesTemplate
  else if e.CommandAliases.length > 0 then aliasesTemplate
  else defaultTemplate

/-- The message of the command-level invalid-plugin error is the wrapped
message (`errors.go`, lines 133-135). -/
def PluginInvalidError.Error (e : PluginInvalidError) : String :=
  e.WrappedErrMessage

/-- The function `HandleError` (`handle_error.go`, lines 5-28): a type switch
over the actor's error kinds; an error of any other kind, and `nil`, is
returned as it is. -/
def HandleError : Option Error → Option Error
  | some (Error.actorPluginNotFound e) =>
    some (Error.sharedPluginNotFound { Name := e.Name })
  | some (Error.actorGettingPluginRepository e) =>
    some (Error.sharedGettingPluginRepository { Name := e.Name, Message := e.Message })
  | some (Error.actorRepositoryNameTaken e) =>
    some (Error.sharedRepositoryNameTaken { Name := e.Name })
  | some (Error.actorRepositoryURLTaken e) =>
    some (Error.sharedRepositoryURLTaken { Name := e.Name, URL := e.URL })
  | some (Error.actorAddPluginRepository e) =>
    some (Error.sharedAddPluginRepository { Name := e.Name, URL := e.URL, Message := e.Message })
  | some (Error.actorPluginInvalid e) =>
    some (Error.sharedPluginInvalid { Path := e.Path, WrappedErrMessage := e.Error })
  | some (Error.actorPluginCommandsConflict e) =>
    some (Error.sharedPluginCommandsConflict
      { PluginName := e.PluginName
        PluginVersion := e.PluginVersion
        CommandNames := e.CommandNames
        CommandAliases := e.CommandAliases })
  | err => err

end shared

namespace pluginaction

/-! ## The tokens collected by the conflict scan -/

/-- The names appended when `command` is compared with one installed command. -/
def nameHits (command installedCommand : PluginCommand) : List String :=
  if command.Name = installedCommand.Name ∨ command.Name = installedCommand.Alias then
    [command.Name]
  else []

/-- The aliases appended when `command` is compared with one installed command. -/
def aliasHits (command installedCommand : PluginCommand) : List String :=
  if command.Alias ≠ "" ∧
      (command.Alias = installedCommand.Alias ∨ command.Alias = installedCommand.Name) then
    [command.Alias]
  else []

/-- The names appended for `command` by the loop over the installed plugins. -/
def installedNameHits {V : Type} (installedPlugins : List (Plugin V)) (pluginName : String)
    (command : PluginCommand) : List String :=
  installedPlugins.flatMap fun installedPlugin =>
    if pluginName = installedPlugin.Name then []
    else installedPlugin.Commands.flatMap (nameHits command)

/-- The aliases appended for `command` by the loop over the installed plugins. -/
def installedAliasHits {V : Type} (installedPlugins : List (Plugin V)) (pluginName : String)
    (command : PluginCommand) : List String :=
  installedPlugins.flatMap fun installedPlugin =>
    if pluginName = installedPlugin.Name then []
    else installedPlugin.Commands.flatMap (aliasHits command)

/-- The names appended in one round of the loop over the candidate's commands. -/
def commandNameHits {V : Type} (commandList : CommandList) (installedPlugins : List (Plugin V))
    (pluginName : String) (command : PluginCommand) : List String :=
  (if commandList.HasCommand command.Name || commandList.HasAlias command.Name then
    [command.Name] else []) ++ installedNameHits installedPlugins pluginName command

/-- The aliases appended in one round of the loop over the candidate's commands. -/
def commandAliasHits {V : Type} (commandList : CommandList) (installedPlugins : List (Plugin V))
    (pluginName : String) (command : PluginCommand) : List String :=
  (if commandList.HasAlias command.Alias || commandList.HasCommand command.Alias then
    [command.Alias] else []) ++ installedAliasHits installedPlugins pluginName command

/-- The content of `conflictingNames` after the scan, before it is sorted. -/
def collectedNames {V : Type} (commandList : CommandList) (installedPlugins : List (Plugin V))
    (plugin : Plugin V) : List String :=
  plugin.Commands.flatMap (commandNameHits commandList installedPlugins plugin.Name)

/-- The content of `conflictingAliases` after the scan, before it is sorted. -/
def collectedAliases {V : Type} (commandList : CommandList) (installedPlugins : List (Plugin V))
    (plugin : Plugin V) : List String :=
  plugin.Commands.flatMap (commandAliasHits commandList installedPlugins plugin.Name)

/-- The `less` closure that `GetAndValidatePlugin` passes to `sort.Slice`. -/
def lessFold {V : Type} (lib : Lib V) (a b : String) : Bool :=
  decide (lib.ToLower a < lib.ToLower b)

/-- The conflict error that `GetAndValidatePlugin` builds from the collected
tokens (`install.go`, lines 142-156). -/
def conflictOf {V : Type} (lib : Lib V) (commandList : CommandList)
    (installedPlugins : List (Plugin V)) (plugin : Plugin V) : PluginCommandsConflictError :=
  { PluginName := plugin.Name
    PluginVersion := lib.VersionString plugin.Version
    CommandNames := sortSlice (lessFold lib) (collectedNames commandList installedPlugins plugin)
    CommandAliases :=
      sortSlice (lessFold lib) (collectedAliases commandList installedPlugins plugin) }

/-! ## Sample values -/

/-- A library for the samples: versions are numbers, and lower-casing maps the
letters `A`-`Z` to `a`-`z`. -/
def sampleLib : Lib Nat :=
  { VersionString := fun v => toString v
    ToLower := fun s => String.mk (s.data.map Char.toLower) }

/-- A registry with the built-in commands `push` and `Apps` and the alias `p`. -/
def sampleRegistry : CommandList :=
  { HasCommand := fun s => decide (s = "push" ∨ s = "Apps")
    HasAlias := fun s => decide (s = "p") }

/-- An extractor that succeeds with `plugin` on every path. -/
def sampleExtractor (plugin : Plugin Nat) : PluginMetadata Nat :=
  { GetMetadata := fun _ => (plugin, none) }

/-- An extractor that fails with `err` on every path. -/
def failingExtractor (err : Error) : PluginMetadata Nat :=
  { GetMetadata := fun _ => (Plugin.zero Nat, some err) }

/-- An actor whose store holds the plugins `installed` and has seen no call. -/
def sampleActor (installed : List (Plugin Nat)) : Actor Nat :=
  { config := { plugins := installed, pluginHome := "/home/plugins", calls := [] } }

/-- An installed plugin `baz` with the commands `x` (alias `bar`) and `list` (alias `ls`). -/
def installedBaz : Plugin Nat :=
  { Name := "baz", Version := 2, Location := "/home/plugins/baz"
    Commands := [{ Name := "x", Alias := "bar" }, { Name := "list", Alias := "ls" }] }

/-- A candidate without a name whose command `push` is a built-in and whose
alias `bar` is used by `installedBaz`. -/
def namelessCandidate : Plugin Nat :=
  { Name := "", Version := 1, Location := ""
    Commands := [{ Name := "push", Alias := "bar" }] }

/-- A candidate `foo`, version `7`, whose only command is the built-in `push`. -/
def fooPush : Plugin Nat :=
  { Name := "foo", Version := 7, Location := ""
    Commands := [{ Name := "push", Alias := "" }] }

/-- A candidate `foo` whose command `bar` has the alias `list`: the name is an
alias in `installedBaz` and the alias is a command name there. -/
def fooBarList : Plugin Nat :=
  { Name := "foo", Version := 3, Location := ""
    Commands := [{ Name := "bar", Alias := "list" }] }

/-- An installed earlier version of `foo` that already has the command `bar`
with the alias `list`. -/
def installedFoo : Plugin Nat :=
  { Name := "foo", Version := 2, Location := "/home/plugins/foo"
    Commands := [{ Name := "bar", Alias := "list" }] }

/-- A candidate `foo` whose command `do-foo` has no alias. -/
def fooDoFoo : Plugin Nat :=
  { Name := "foo", Version := 1, Location := ""
    Commands := [{ Name := "do-foo", Alias := "" }] }

/-- The actor whose store no longer holds the installed plugins named `name`. -/
def Actor.withoutPluginsNamed {V : Type} (actor : Actor V) (name : String) : Actor V :=
  { config :=
      { actor.config with
        plugins := actor.config.plugins.filter fun p => decide (p.Name ≠ name) } }

/-- A candidate `foo` with four commands: `push` twice and `Apps` are
built-ins, `list` is a command of `installedBaz`; the alias `p` is a built-in
alias, `x` is a command name and `ls` an alias in `installedBaz`. -/
def fooCrowded : Plugin Nat :=
  { Name := "foo", Version := 5, Location := ""
    Commands :=
      [{ Name := "push", Alias := "" }, { Name := "Apps", Alias := "p" },
       { Name := "push", Alias := "x" }, { Name := "list", Alias := "ls" }] }

/-- The conflict that `fooCrowded` runs into next to `installedBaz`. -/
def fooCrowdedConflict : PluginCommandsConflictError :=
  { PluginName := "foo", PluginVersion := "5"
    CommandNames := ["Apps", "list", "push", "push"]
    CommandAliases := ["ls", "p", "x"] }

/-! ## The conflict report in the words of the specification -/

/-- The triples of a command of the candidate, an installed plugin with a
different `Name`, and a command of that installed plugin. -/
def conflictTriples {V : Type} (installedPlugins : List (Plugin V)) (plugin : Plugin V) :
    List (PluginCommand × Plugin V × PluginCommand) :=
  plugin.Commands.flatMap fun c =>
    (installedPlugins.filter fun p => decide (p.Name ≠ plugin.Name)).flatMap fun p =>
      p.Commands.map fun ic => (c, p, ic)

/-- One copy of `c.Name` for each candidate command `c` whose `Name` is a
built-in command or alias, and one copy of `c.Name` for each triple
`(c, p, ic)` with `c.Name == ic.Name` or `c.Name == ic.Alias`. -/
def specConflictNames {V : Type} (commandList : CommandList)
    (installedPlugins : List (Plugin V)) (plugin : Plugin V) : List String :=
  (plugin.Commands.filter fun c =>
      commandList.HasCommand c.Name || commandList.HasAlias c.Name).map (fun c => c.Name) ++
    ((conflictTriples installedPlugins plugin).filter fun t =>
      decide (t.1.Name = t.2.2.Name ∨ t.1.Name = t.2.2.Alias)).map (fun t => t.1.Name)

/-- One copy of `c.Alias` for each candidate command `c` whose `Alias` is a
built-in command or alias, and one copy of `c.Alias` for each triple
`(c, p, ic)` with `c.Alias` non-empty and `c.Alias == ic.Alias` or
`c.Alias == ic.Name`. -/
def specConflictAliases {V : Type} (commandList : CommandList)
    (installedPlugins : List (Plugin V)) (plugin : Plugin V) : List String :=
  (plugin.Commands.filter fun c =>
      commandList.HasAlias c.Alias || commandList.HasCommand c.Alias).map (fun c => c.Alias) ++
    ((conflictTriples installedPlugins plugin).filter fun t =>
      decide (t.1.Alias ≠ "" ∧ (t.1.Alias = t.2.2.Alias ∨ t.1.Alias = t.2.2.Name))).map
        (fun t => t.1.Alias)

/-- A system that refuses no call. -/
def noFault : OsCall → Option Error :=
  fun _ => none

/-- A system that refuses to persist the plugin config and nothing else. -/
def writeFault : OsCall → Option Error
  | OsCall.WritePluginConfig => some (Error.other "no space left on device")
  | _ => none

/-- A system that refuses every change of permission bits and nothing else. -/
def chmodFault : OsCall → Option Error
  | OsCall.Chmod _ _ => some (Error.other "operation not permitted")
  | _ => none

/-- A world with one file, the four-byte binary at `/tmp/foo`, and an empty
persisted registry. -/
def sampleWorld (fault : OsCall → Option Error) : World Nat :=
  { files := fun p => if p = "/tmp/foo" then some { content := [127, 69, 76, 70], mode := 0o644 }
      else none
    tempSuffix := "012345678"
    fault := fault
    pluginConfig := [] }

/-- A registry that keeps an empty alias for its commands without alias, and
so answers that the empty string is an alias. -/
def blankAliasRegistry : CommandList :=
  { HasCommand := fun s => decide (s = "push")
    HasAlias := fun s => decide (s = "p" ∨ s = "") }

/-- The total number of commands of the installed plugins whose `Name` differs
from `pluginName`. -/
def otherCommandsCount {V : Type} (installedPlugins : List (Plugin V)) (pluginName : String) :
    Nat :=
  ((installedPlugins.filter fun p => decide (p.Name ≠ pluginName)).map
    fun p => p.Commands.length).sum

/-! ## The sort -/

theorem insertLeft_perm {α : Type} (less : α → α → Bool) (x : α) (l : List α) :
    (insertLeft less x l).Perm (x :: l) := by
  induction l with
  | nil => exact List.Perm.refl _
  | cons y ys ih =>
    unfold insertLeft
    split
    · exact (List.Perm.cons y ih).trans (List.Perm.swap x y ys)
    · exact List.Perm.refl _

theorem foldl_insertLeft_perm {α : Type} (less : α → α → Bool) (l acc : List α) :
    (l.foldl (fun sorted x => insertLeft less x sorted) acc).Perm (l ++ acc) := by
  induction l generalizing acc with
  | nil => exact List.Perm.refl _
  | cons x xs ih =>
    refine (ih (insertLeft less x acc)).trans ?_
    refine (List.Perm.append_left xs (insertLeft_perm less x acc)).trans ?_
    exact List.perm_middle

theorem sortSlice_perm {α : Type} (less : α → α → Bool) (l : List α) :
    (sortSlice less l).Perm l := by
  unfold sortSlice
  refine (List.reverse_perm _).trans ?_
  simpa using foldl_insertLeft_perm less l []

theorem sortSlice_eq_nil_iff {α : Type} (less : α → α → Bool) (l : List α) :
    sortSlice less l = [] ↔ l = [] := by
  constructor
  · intro h
    have hp := sortSlice_perm less l
    rw [h] at hp
    exact List.Perm.eq_nil hp.symm
  · intro h
    subst h
    rfl

theorem insertLeft_head {α : Type} (less : α → α → Bool) (x : α) (l : List α) :
    ∀ h ∈ (insertLeft less x l).head?, h = x ∨ h ∈ l.head? := by
  intro h hh
  cases l with
  | nil => left; simpa [insertLeft] using hh.symm
  | cons y ys =>
    unfold insertLeft at hh
    split at hh
    · right; simpa using hh
    · left; simpa using hh.symm

theorem insertLeft_chain {α : Type} (less : α → α → Bool)
    (hasym : ∀ a b, less a b = true → less b a = false) (x : α) (l : List α)
    (hl : List.Chain' (fun a b => less a b = false) l) :
    List.Chain' (fun a b => less a b = false) (insertLeft less x l) := by
  induction l with
  | nil => simp [insertLeft]
  | cons y ys ih =>
    unfold insertLeft
    split
    · rename_i hxy
      refine List.Chain'.cons' (ih hl.tail) ?_
      intro h hh
      rcases insertLeft_head less x ys h hh with rfl | hys
      · exact hasym _ _ hxy
      · exact hl.rel_head? hys
    · rename_i hxy
      exact List.Chain'.cons (by simpa using hxy) hl

theorem foldl_insertLeft_chain {α : Type} (less : α → α → Bool)
    (hasym : ∀ a b, less a b = true → less b a = false) (l acc : List α)
    (hacc : List.Chain' (fun a b => less a b = false) acc) :
    List.Chain' (fun a b => less a b = false)
      (l.foldl (fun sorted x => insertLeft less x sorted) acc) := by
  induction l generalizing acc with
  | nil => exact hacc
  | cons x xs ih => exact ih _ (insertLeft_chain less hasym x acc hacc)

/-- In the result of the sort no element is less than the one before it. -/
theorem sortSlice_chain {α : Type} (less : α → α → Bool)
    (hasym : ∀ a b, less a b = true → less b a = false) (l : List α) :
    List.Chain' (fun x y => less y x = false) (sortSlice less l) := by
  unfold sortSlice
  rw [List.chain'_reverse]
  exact foldl_insertLeft_chain less hasym l [] List.chain'_nil

theorem lessFold_asymm {V : Type} (lib : Lib V) (a b : String)
    (h : lessFold lib a b = true) : lessFold lib b a = false := by
  unfold lessFold at *
  have h1 : lib.ToLower a < lib.ToLower b := of_decide_eq_true h
  exact decide_eq_false (lt_asymm h1)

/-! ## The scan, loop by loop -/

theorem foldl_scanInstalledCommand (command : PluginCommand) (cmds : List PluginCommand)
    (acc : List String × List String) :
    cmds.foldl (scanInstalledCommand command) acc =
      (acc.1 ++ cmds.flatMap (nameHits command), acc.2 ++ cmds.flatMap (aliasHits command)) := by
  induction cmds generalizing acc with
  | nil => simp
  | cons ic rest ih =>
    rw [List.foldl_cons, ih]
    unfold scanInstalledCommand nameHits aliasHits
    simp only [List.flatMap_cons]
    split <;> split <;> simp

theorem foldl_scanInstalledPlugin {V : Type} (pluginName : String) (command : PluginCommand)
    (installedPlugins : List (Plugin V)) (acc : List String × List String) :
    installedPlugins.foldl (scanInstalledPlugin pluginName command) acc =
      (acc.1 ++ installedNameHits installedPlugins pluginName command,
       acc.2 ++ installedAliasHits installedPlugins pluginName command) := by
  induction installedPlugins generalizing acc with
  | nil => simp [installedNameHits, installedAliasHits]
  | cons p rest ih =>
    rw [List.foldl_cons, ih]
    unfold scanInstalledPlugin installedNameHits installedAliasHits
    simp only [List.flatMap_cons]
    split
    · simp
    · rw [foldl_scanInstalledCommand]
      simp

theorem foldl_scanCommand {V : Type} (commandList : CommandList)
    (installedPlugins : List (Plugin V)) (pluginName : String) (cmds : List PluginCommand)
    (acc : List String × List String) :
    cmds.foldl (scanCommand commandList installedPlugins pluginName) acc =
      (acc.1 ++ cmds.flatMap (commandNameHits commandList installedPlugins pluginName),
       acc.2 ++ cmds.flatMap (commandAliasHits commandList installedPlugins pluginName)) := by
  induction cmds generalizing acc with
  | nil => simp
  | cons c rest ih =>
    rw [List.foldl_cons, ih]
    unfold scanCommand commandNameHits commandAliasHits
    rw [foldl_scanInstalledPlugin]
    simp only [List.flatMap_cons]
    split <;> split <;> simp

/-- The result of `GetAndValidatePlugin` on a structurally valid candidate, in
terms of the collected tokens. -/
theorem GetAndValidatePlugin_valid {V : Type} [Inhabited V] (lib : Lib V) (actor : Actor V)
    (pluginMetadata : PluginMetadata V) (commandList : CommandList) (path : String)
    (plugin : Plugin V) (hmeta : pluginMetadata.GetMetadata path = (plugin, none))
    (hname : plugin.Name ≠ "") (hcmds : plugin.Commands ≠ []) :
    actor.GetAndValidatePlugin lib pluginMetadata commandList path =
      (if collectedNames commandList actor.config.plugins plugin = [] ∧
          collectedAliases commandList actor.config.plugins plugin = [] then
        (plugin, none)
      else
        (Plugin.zero V, some (Error.actorPluginCommandsConflict
          (conflictOf lib commandList actor.config.plugins plugin))),
       { config := actor.config.Plugins.2 }) := by
  have hlen : ¬ plugin.Commands.length = 0 := by
    intro h
    exact hcmds (List.length_eq_zero.mp h)
  unfold Actor.GetAndValidatePlugin
  simp only [hmeta, hname, hlen, or_self, if_false, Config.Plugins, foldl_scanCommand,
    List.nil_append]
  have hn := sortSlice_eq_nil_iff (lessFold lib)
    (collectedNames commandList actor.config.plugins plugin)
  have ha := sortSlice_eq_nil_iff (lessFold lib)
    (collectedAliases commandList actor.config.plugins plugin)
  change (if (sortSlice (lessFold lib)
      (collectedNames commandList actor.config.plugins plugin)).length > 0 ∨
      (sortSlice (lessFold lib)
        (collectedAliases commandList actor.config.plugins plugin)).length > 0
    then _ else _ : (Plugin V × Option Error) × Actor V) = _
  by_cases h : collectedNames commandList actor.config.plugins plugin = [] ∧
      collectedAliases commandList actor.config.plugins plugin = []
  · have hc : ¬ ((sortSlice (lessFold lib)
        (collectedNames commandList actor.config.plugins plugin)).length > 0 ∨
        (sortSlice (lessFold lib)
          (collectedAliases commandList actor.config.plugins plugin)).length > 0) := by
      rw [hn.mpr h.1, ha.mpr h.2]
      simp
    rw [if_neg hc, if_pos h]
  · have hc : (sortSlice (lessFold lib)
        (collectedNames commandList actor.config.plugins plugin)).length > 0 ∨
        (sortSlice (lessFold lib)
          (collectedAliases commandList actor.config.plugins plugin)).length > 0 := by
      by_cases h1 : collectedNames commandList actor.config.plugins plugin = []
      · right
        exact List.length_pos.mpr (fun hs => h ⟨h1, ha.mp hs⟩)
      · left
        exact List.length_pos.mpr (fun hs => h1 (hn.mp hs))
    rw [if_pos hc, if_neg h]
    rfl

theorem GetAndValidatePlugin_extractError {V : Type} [Inhabited V] (lib : Lib V)
    (actor : Actor V) (pluginMetadata : PluginMetadata V) (commandList : CommandList)
    (path : String) (plugin : Plugin V) (err : Error)
    (hmeta : pluginMetadata.GetMetadata path = (plugin, some err)) :
    actor.GetAndValidatePlugin lib pluginMetadata commandList path =
      ((Plugin.zero V, some err), actor) := by
  unfold Actor.GetAndValidatePlugin
  simp only [hmeta]

theorem GetAndValidatePlugin_invalid {V : Type} [Inhabited V] (lib : Lib V)
    (actor : Actor V) (pluginMetadata : PluginMetadata V) (commandList : CommandList)
    (path : String) (plugin : Plugin V)
    (hmeta : pluginMetadata.GetMetadata path = (plugin, none))
    (hinvalid : plugin.Name = "" ∨ plugin.Commands = []) :
    actor.GetAndValidatePlugin lib pluginMetadata commandList path =
      ((Plugin.zero V, some (Error.actorPluginInvalid { Path := path })), actor) := by
  have h : plugin.Name = "" ∨ plugin.Commands.length = 0 := by
    rcases hinvalid with h | h
    · exact Or.inl h
    · exact Or.inr (by rw [h]; rfl)
  unfold Actor.GetAndValidatePlugin
  simp only [hmeta, if_pos h]

/-! ## Membership in the collected tokens -/

theorem mem_installedNameHits {V : Type} (installedPlugins : List (Plugin V))
    (pluginName : String) (command : PluginCommand) (x : String) :
    x ∈ installedNameHits installedPlugins pluginName command ↔
      x = command.Name ∧ ∃ p ∈ installedPlugins, pluginName ≠ p.Name ∧
        ∃ ic ∈ p.Commands, command.Name = ic.Name ∨ command.Name = ic.Alias := by
  unfold installedNameHits
  simp only [List.mem_flatMap]
  constructor
  · rintro ⟨p, hp, hx⟩
    split at hx
    · simp at hx
    · rename_i hne
      rw [List.mem_flatMap] at hx
      obtain ⟨ic, hic, hx⟩ := hx
      unfold nameHits at hx
      split at hx
      · rename_i hcol
        exact ⟨by simpa using hx, p, hp, hne, ic, hic, hcol⟩
      · simp at hx
  · rintro ⟨rfl, p, hp, hne, ic, hic, hcol⟩
    refine ⟨p, hp, ?_⟩
    rw [if_neg hne, List.mem_flatMap]
    refine ⟨ic, hic, ?_⟩
    unfold nameHits
    rw [if_pos hcol]
    exact List.mem_singleton_self _

theorem mem_installedAliasHits {V : Type} (installedPlugins : List (Plugin V))
    (pluginName : String) (command : PluginCommand) (x : String) :
    x ∈ installedAliasHits installedPlugins pluginName command ↔
      x = command.Alias ∧ ∃ p ∈ installedPlugins, pluginName ≠ p.Name ∧
        ∃ ic ∈ p.Commands, command.Alias ≠ "" ∧
          (command.Alias = ic.Alias ∨ command.Alias = ic.Name) := by
  unfold installedAliasHits
  simp only [List.mem_flatMap]
  constructor
  · rintro ⟨p, hp, hx⟩
    split at hx
    · simp at hx
    · rename_i hne
      rw [List.mem_flatMap] at hx
      obtain ⟨ic, hic, hx⟩ := hx
      unfold aliasHits at hx
      split at hx
      · rename_i hcol
        exact ⟨by simpa using hx, p, hp, hne, ic, hic, hcol⟩
      · simp at hx
  · rintro ⟨rfl, p, hp, hne, ic, hic, hcol⟩
    refine ⟨p, hp, ?_⟩
    rw [if_neg hne, List.mem_flatMap]
    refine ⟨ic, hic, ?_⟩
    unfold aliasHits
    rw [if_pos hcol]
    exact List.mem_singleton_self _

theorem mem_collectedNames {V : Type} (commandList : CommandList)
    (installedPlugins : List (Plugin V)) (plugin : Plugin V) (x : String) :
    x ∈ collectedNames commandList installedPlugins plugin ↔
      ∃ c ∈ plugin.Commands, x = c.Name ∧
        ((commandList.HasCommand c.Name = true ∨ commandList.HasAlias c.Name = true) ∨
          ∃ p ∈ installedPlugins, plugin.Name ≠ p.Name ∧
            ∃ ic ∈ p.Commands, c.Name = ic.Name ∨ c.Name = ic.Alias) := by
  unfold collectedNames commandNameHits
  simp only [List.mem_flatMap, List.mem_append, mem_installedNameHits]
  constructor
  · rintro ⟨c, hc, h | ⟨hx, h⟩⟩
    · split at h
      · rename_i hb
        exact ⟨c, hc, by simpa using h, Or.inl (by simpa using hb)⟩
      · simp at h
    · exact ⟨c, hc, hx, Or.inr h⟩
  · rintro ⟨c, hc, hx, hb | h⟩
    · refine ⟨c, hc, Or.inl ?_⟩
      have hb' : (commandList.HasCommand c.Name || commandList.HasAlias c.Name) = true := by
        simpa using hb
      rw [if_pos hb', hx]
      exact List.mem_singleton_self _
    · exact ⟨c, hc, Or.inr ⟨hx, h⟩⟩

theorem mem_collectedAliases {V : Type} (commandList : CommandList)
    (installedPlugins : List (Plugin V)) (plugin : Plugin V) (x : String) :
    x ∈ collectedAliases commandList installedPlugins plugin ↔
      ∃ c ∈ plugin.Commands, x = c.Alias ∧
        ((commandList.HasAlias c.Alias = true ∨ commandList.HasCommand c.Alias = true) ∨
          ∃ p ∈ installedPlugins, plugin.Name ≠ p.Name ∧
            ∃ ic ∈ p.Commands, c.Alias ≠ "" ∧ (c.Alias = ic.Alias ∨ c.Alias = ic.Name)) := by
  unfold collectedAliases commandAliasHits
  simp only [List.mem_flatMap, List.mem_append, mem_installedAliasHits]
  constructor
  · rintro ⟨c, hc, h | ⟨hx, h⟩⟩
    · split at h
      · rename_i hb
        exact ⟨c, hc, by simpa using h, Or.inl (by simpa using hb)⟩
      · simp at h
    · exact ⟨c, hc, hx, Or.inr h⟩
  · rintro ⟨c, hc, hx, hb | h⟩
    · refine ⟨c, hc, Or.inl ?_⟩
      have hb' : (commandList.HasAlias c.Alias || commandList.HasCommand c.Alias) = true := by
        simpa using hb
      rw [if_pos hb', hx]
      exact List.mem_singleton_self _
    · exact ⟨c, hc, Or.inr ⟨hx, h⟩⟩

/-- The result on a structurally valid candidate one of whose tokens was collected. -/
theorem GetAndValidatePlugin_conflict {V : Type} [Inhabited V] (lib : Lib V) (actor : Actor V)
    (pluginMetadata : PluginMetadata V) (commandList : CommandList) (path : String)
    (plugin : Plugin V) (hmeta : pluginMetadata.GetMetadata path = (plugin, none))
    (hname : plugin.Name ≠ "") (hcmds : plugin.Commands ≠ [])
    (hne : ¬ (collectedNames commandList actor.config.plugins plugin = [] ∧
      collectedAliases commandList actor.config.plugins plugin = [])) :
    (actor.GetAndValidatePlugin lib pluginMetadata commandList path).1 =
      (Plugin.zero V, some (Error.actorPluginCommandsConflict
        (conflictOf lib commandList actor.config.plugins plugin))) := by
  rw [GetAndValidatePlugin_valid lib actor pluginMetadata commandList path plugin hmeta hname
    hcmds]
  exact if_neg hne

theorem mem_conflictOf_names {V : Type} (lib : Lib V) (commandList : CommandList)
    (installedPlugins : List (Plugin V)) (plugin : Plugin V) (x : String) :
    x ∈ (conflictOf lib commandList installedPlugins plugin).CommandNames ↔
      x ∈ collectedNames commandList installedPlugins plugin :=
  (sortSlice_perm _ _).mem_iff

theorem mem_conflictOf_aliases {V : Type} (lib : Lib V) (commandList : CommandList)
    (installedPlugins : List (Plugin V)) (plugin : Plugin V) (x : String) :
    x ∈ (conflictOf lib commandList installedPlugins plugin).CommandAliases ↔
      x ∈ collectedAliases commandList installedPlugins plugin :=
  (sortSlice_perm _ _).mem_iff

/-! ## Structural validation and extraction failures -/

/-- C1: if the Metadata Extractor succeeds on `path` with a plugin whose `Name`
is empty or whose `Commands` list is empty, `GetAndValidatePlugin` returns the
zero plugin and `PluginInvalidError` carrying `path`, whatever the registry
answers and whatever plugins are installed: the conflict scan has no say. -/
theorem GetAndValidatePlugin_structural {V : Type} [Inhabited V] (lib : Lib V)
    (actor : Actor V) (pluginMetadata : PluginMetadata V) (commandList : CommandList)
    (path : String) (plugin : Plugin V)
    (hmeta : pluginMetadata.GetMetadata path = (plugin, none))
    (hinvalid : plugin.Name = "" ∨ plugin.Commands = []) :
    (actor.GetAndValidatePlugin lib pluginMetadata commandList path).1 =
      (Plugin.zero V, some (Error.actorPluginInvalid { Path := path })) := by
  rw [GetAndValidatePlugin_invalid lib actor pluginMetadata commandList path plugin hmeta
    hinvalid]

/-- A nameless plugin whose command `push` is a built-in and whose alias `bar`
is used by the installed plugin `baz` is reported as invalid, not as a conflict. -/
theorem GetAndValidatePlugin_structural_witness :
    (sampleExtractor namelessCandidate).GetMetadata "/tmp/candidate" =
      (namelessCandidate, none) ∧
    namelessCandidate.Name = "" ∧
    ((sampleActor [installedBaz]).GetAndValidatePlugin sampleLib
      (sampleExtractor namelessCandidate) sampleRegistry "/tmp/candidate").1 =
      (Plugin.zero Nat, some (Error.actorPluginInvalid { Path := "/tmp/candidate" })) :=
  ⟨rfl, rfl, GetAndValidatePlugin_structural sampleLib (sampleActor [installedBaz])
    (sampleExtractor namelessCandidate) sampleRegistry "/tmp/candidate" namelessCandidate
    rfl (Or.inl rfl)⟩

/-! ## Conflicts with built-in commands and with installed plugins -/

/-- C2: for a structurally valid candidate returned by the extractor, a command
whose `Name` is a built-in command or alias makes `GetAndValidatePlugin` fail
with a `PluginCommandsConflictError` whose `CommandNames` contains that name,
and a command whose `Alias` is a built-in command or alias makes it fail with
one whose `CommandAliases` contains that alias; the error carries the
candidate's `Name` and its `Version` rendered as a string. -/
theorem GetAndValidatePlugin_builtin_conflict {V : Type} [Inhabited V] (lib : Lib V)
    (actor : Actor V) (pluginMetadata : PluginMetadata V) (commandList : CommandList)
    (path : String) (plugin : Plugin V)
    (hmeta : pluginMetadata.GetMetadata path = (plugin, none))
    (hname : plugin.Name ≠ "") (hcmds : plugin.Commands ≠ []) :
    (∀ c ∈ plugin.Commands,
      commandList.HasCommand c.Name = true ∨ commandList.HasAlias c.Name = true →
      ∃ e : PluginCommandsConflictError,
        (actor.GetAndValidatePlugin lib pluginMetadata commandList path).1 =
          (Plugin.zero V, some (Error.actorPluginCommandsConflict e)) ∧
        c.Name ∈ e.CommandNames ∧ e.PluginName = plugin.Name ∧
        e.PluginVersion = lib.VersionString plugin.Version) ∧
    (∀ c ∈ plugin.Commands,
      commandList.HasCommand c.Alias = true ∨ commandList.HasAlias c.Alias = true →
      ∃ e : PluginCommandsConflictError,
        (actor.GetAndValidatePlugin lib pluginMetadata commandList path).1 =
          (Plugin.zero V, some (Error.actorPluginCommandsConflict e)) ∧
        c.Alias ∈ e.CommandAliases ∧ e.PluginName = plugin.Name ∧
        e.PluginVersion = lib.VersionString plugin.Version) := by
  constructor
  · intro c hc hb
    have hmem : c.Name ∈ collectedNames commandList actor.config.plugins plugin :=
      (mem_collectedNames _ _ _ _).mpr ⟨c, hc, rfl, Or.inl hb⟩
    refine ⟨conflictOf lib commandList actor.config.plugins plugin, ?_, ?_, rfl, rfl⟩
    · refine GetAndValidatePlugin_conflict lib actor pluginMetadata commandList path plugin
        hmeta hname hcmds ?_
      intro h
      rw [h.1] at hmem
      exact List.not_mem_nil _ hmem
    · exact (mem_conflictOf_names _ _ _ _ _).mpr hmem
  · intro c hc hb
    have hmem : c.Alias ∈ collectedAliases commandList actor.config.plugins plugin :=
      (mem_collectedAliases _ _ _ _).mpr ⟨c, hc, rfl, Or.inl hb.symm⟩
    refine ⟨conflictOf lib commandList actor.config.plugins plugin, ?_, ?_, rfl, rfl⟩
    · refine GetAndValidatePlugin_conflict lib actor pluginMetadata commandList path plugin
        hmeta hname hcmds ?_
      intro h
      rw [h.2] at hmem
      exact List.not_mem_nil _ hmem
    · exact (mem_conflictOf_aliases _ _ _ _ _).mpr hmem

/-- The candidate `foo` with the command `push` (a built-in) is refused with a
conflict that lists `push`, names `foo` and carries the version `7`. -/
theorem GetAndValidatePlugin_builtin_conflict_witness :
    ∃ e : PluginCommandsConflictError,
      ((sampleActor []).GetAndValidatePlugin sampleLib (sampleExtractor fooPush)
        sampleRegistry "/tmp/foo").1 =
        (Plugin.zero Nat, some (Error.actorPluginCommandsConflict e)) ∧
      "push" ∈ e.CommandNames ∧ e.PluginName = "foo" ∧ e.PluginVersion = "7" :=
  (GetAndValidatePlugin_builtin_conflict sampleLib (sampleActor []) (sampleExtractor fooPush)
    sampleRegistry "/tmp/foo" fooPush rfl (by decide) (by decide)).1
    { Name := "push", Alias := "" } (List.mem_singleton_self _) (Or.inl (by decide))

/-- C3: for a structurally valid candidate and an installed plugin `p` whose
`Name` differs from the candidate's, a candidate command `c` and a command
`ic` of `p` with `c.Name == ic.Name` or `c.Name == ic.Alias` make
`GetAndValidatePlugin` fail with a conflict whose `CommandNames` contains
`c.Name`; and when `c.Alias` is non-empty and equals `ic.Alias` or `ic.Name`,
it fails with a conflict whose `CommandAliases` contains `c.Alias`. -/
theorem GetAndValidatePlugin_installed_conflict {V : Type} [Inhabited V] (lib : Lib V)
    (actor : Actor V) (pluginMetadata : PluginMetadata V) (commandList : CommandList)
    (path : String) (plugin : Plugin V)
    (hmeta : pluginMetadata.GetMetadata path = (plugin, none))
    (hname : plugin.Name ≠ "") (hcmds : plugin.Commands ≠ [])
    (p : Plugin V) (hp : p ∈ actor.config.plugins) (hdiff : p.Name ≠ plugin.Name)
    (c : PluginCommand) (hc : c ∈ plugin.Commands)
    (ic : PluginCommand) (hic : ic ∈ p.Commands) :
    (c.Name = ic.Name ∨ c.Name = ic.Alias →
      ∃ e : PluginCommandsConflictError,
        (actor.GetAndValidatePlugin lib pluginMetadata commandList path).1 =
          (Plugin.zero V, some (Error.actorPluginCommandsConflict e)) ∧
        c.Name ∈ e.CommandNames) ∧
    (c.Alias ≠ "" ∧ (c.Alias = ic.Alias ∨ c.Alias = ic.Name) →
      ∃ e : PluginCommandsConflictError,
        (actor.GetAndValidatePlugin lib pluginMetadata commandList path).1 =
          (Plugin.zero V, some (Error.actorPluginCommandsConflict e)) ∧
        c.Alias ∈ e.CommandAliases) := by
  constructor
  · intro hcol
    have hmem : c.Name ∈ collectedNames commandList actor.config.plugins plugin :=
      (mem_collectedNames _ _ _ _).mpr
        ⟨c, hc, rfl, Or.inr ⟨p, hp, fun h => hdiff h.symm, ic, hic, hcol⟩⟩
    refine ⟨conflictOf lib commandList actor.config.plugins plugin, ?_, ?_⟩
    · refine GetAndValidatePlugin_conflict lib actor pluginMetadata commandList path plugin
        hmeta hname hcmds ?_
      intro h
      rw [h.1] at hmem
      exact List.not_mem_nil _ hmem
    · exact (mem_conflictOf_names _ _ _ _ _).mpr hmem
  · intro hcol
    have hmem : c.Alias ∈ collectedAliases commandList actor.config.plugins plugin :=
      (mem_collectedAliases _ _ _ _).mpr
        ⟨c, hc, rfl, Or.inr ⟨p, hp, fun h => hdiff h.symm, ic, hic, hcol⟩⟩
    refine ⟨conflictOf lib commandList actor.config.plugins plugin, ?_, ?_⟩
    · refine GetAndValidatePlugin_conflict lib actor pluginMetadata commandList path plugin
        hmeta hname hcmds ?_
      intro h
      rw [h.2] at hmem
      exact List.not_mem_nil _ hmem
    · exact (mem_conflictOf_aliases _ _ _ _ _).mpr hmem

/-- Against the installed plugin `baz`, the candidate `foo` is refused both for
its name `bar`, the alias of the installed `x`, and for its alias `list`, the
name of an installed command. -/
theorem GetAndValidatePlugin_installed_conflict_witness :
    (∃ e : PluginCommandsConflictError,
      ((sampleActor [installedBaz]).GetAndValidatePlugin sampleLib (sampleExtractor fooBarList)
        sampleRegistry "/tmp/foo").1 =
        (Plugin.zero Nat, some (Error.actorPluginCommandsConflict e)) ∧
      "bar" ∈ e.CommandNames) ∧
    (∃ e : PluginCommandsConflictError,
      ((sampleActor [installedBaz]).GetAndValidatePlugin sampleLib (sampleExtractor fooBarList)
        sampleRegistry "/tmp/foo").1 =
        (Plugin.zero Nat, some (Error.actorPluginCommandsConflict e)) ∧
      "list" ∈ e.CommandAliases) :=
  ⟨(GetAndValidatePlugin_installed_conflict sampleLib (sampleActor [installedBaz])
      (sampleExtractor fooBarList) sampleRegistry "/tmp/foo" fooBarList rfl (by decide)
      (by decide) installedBaz (List.mem_singleton_self _) (by decide)
      { Name := "bar", Alias := "list" } (List.mem_singleton_self _)
      { Name := "x", Alias := "bar" } (by decide)).1 (Or.inr rfl),
   (GetAndValidatePlugin_installed_conflict sampleLib (sampleActor [installedBaz])
      (sampleExtractor fooBarList) sampleRegistry "/tmp/foo" fooBarList rfl (by decide)
      (by decide) installedBaz (List.mem_singleton_self _) (by decide)
      { Name := "bar", Alias := "list" } (List.mem_singleton_self _)
      { Name := "list", Alias := "ls" } (by decide)).2 ⟨by decide, Or.inr rfl⟩⟩

/-! ## The same-name exemption -/

theorem installedNameHits_filter {V : Type} (installedPlugins : List (Plugin V))
    (pluginName : String) (command : PluginCommand) :
    installedNameHits (installedPlugins.filter fun p => decide (p.Name ≠ pluginName))
      pluginName command = installedNameHits installedPlugins pluginName command := by
  unfold installedNameHits
  induction installedPlugins with
  | nil => rfl
  | cons p rest ih =>
    by_cases h : pluginName = p.Name
    · have hf : ¬ (decide (p.Name ≠ pluginName) = true) := by simp [h]
      simp only [List.filter_cons, if_neg hf, ih, List.flatMap_cons, if_pos h, List.nil_append]
    · have hf : decide (p.Name ≠ pluginName) = true := by
        simp only [ne_eq, decide_eq_true_eq]
        exact fun h2 => h h2.symm
      simp only [List.filter_cons, if_pos hf, List.flatMap_cons, ih]

theorem installedAliasHits_filter {V : Type} (installedPlugins : List (Plugin V))
    (pluginName : String) (command : PluginCommand) :
    installedAliasHits (installedPlugins.filter fun p => decide (p.Name ≠ pluginName))
      pluginName command = installedAliasHits installedPlugins pluginName command := by
  unfold installedAliasHits
  induction installedPlugins with
  | nil => rfl
  | cons p rest ih =>
    by_cases h : pluginName = p.Name
    · have hf : ¬ (decide (p.Name ≠ pluginName) = true) := by simp [h]
      simp only [List.filter_cons, if_neg hf, ih, List.flatMap_cons, if_pos h, List.nil_append]
    · have hf : decide (p.Name ≠ pluginName) = true := by
        simp only [ne_eq, decide_eq_true_eq]
        exact fun h2 => h h2.symm
      simp only [List.filter_cons, if_pos hf, List.flatMap_cons, ih]

theorem collectedNames_filter {V : Type} (commandList : CommandList)
    (installedPlugins : List (Plugin V)) (plugin : Plugin V) :
    collectedNames commandList
      (installedPlugins.filter fun p => decide (p.Name ≠ plugin.Name)) plugin =
      collectedNames commandList installedPlugins plugin := by
  unfold collectedNames commandNameHits
  simp only [installedNameHits_filter]

theorem collectedAliases_filter {V : Type} (commandList : CommandList)
    (installedPlugins : List (Plugin V)) (plugin : Plugin V) :
    collectedAliases commandList
      (installedPlugins.filter fun p => decide (p.Name ≠ plugin.Name)) plugin =
      collectedAliases commandList installedPlugins plugin := by
  unfold collectedAliases commandAliasHits
  simp only [installedAliasHits_filter]

/-- The scan collects nothing exactly when no token of the candidate is a
built-in command or alias and none collides with a command of an installed
plugin of a different name. -/
theorem collected_nil_iff {V : Type} (commandList : CommandList)
    (installedPlugins : List (Plugin V)) (plugin : Plugin V) :
    (collectedNames commandList installedPlugins plugin = [] ∧
      collectedAliases commandList installedPlugins plugin = []) ↔
    ∀ c ∈ plugin.Commands,
      (commandList.HasCommand c.Name = false ∧ commandList.HasAlias c.Name = false ∧
        commandList.HasCommand c.Alias = false ∧ commandList.HasAlias c.Alias = false) ∧
      ∀ p ∈ installedPlugins, p.Name ≠ plugin.Name → ∀ ic ∈ p.Commands,
        c.Name ≠ ic.Name ∧ c.Name ≠ ic.Alias ∧
        (c.Alias ≠ "" → c.Alias ≠ ic.Name ∧ c.Alias ≠ ic.Alias) := by
  constructor
  · rintro ⟨hn, ha⟩ c hc
    have hN : ∀ x, ¬ x ∈ collectedNames commandList installedPlugins plugin := by
      intro x hx
      rw [hn] at hx
      exact List.not_mem_nil _ hx
    have hA : ∀ x, ¬ x ∈ collectedAliases commandList installedPlugins plugin := by
      intro x hx
      rw [ha] at hx
      exact List.not_mem_nil _ hx
    simp only [mem_collectedNames] at hN
    simp only [mem_collectedAliases] at hA
    refine ⟨⟨?_, ?_, ?_, ?_⟩, ?_⟩
    · cases h : commandList.HasCommand c.Name
      · rfl
      · exact absurd ⟨c, hc, rfl, Or.inl (Or.inl h)⟩ (hN c.Name)
    · cases h : commandList.HasAlias c.Name
      · rfl
      · exact absurd ⟨c, hc, rfl, Or.inl (Or.inr h)⟩ (hN c.Name)
    · cases h : commandList.HasCommand c.Alias
      · rfl
      · exact absurd ⟨c, hc, rfl, Or.inl (Or.inr h)⟩ (hA c.Alias)
    · cases h : commandList.HasAlias c.Alias
      · rfl
      · exact absurd ⟨c, hc, rfl, Or.inl (Or.inl h)⟩ (hA c.Alias)
    · intro p hp hdiff ic hic
      have hne : plugin.Name ≠ p.Name := fun h => hdiff h.symm
      refine ⟨?_, ?_, ?_⟩
      · intro h
        exact hN c.Name ⟨c, hc, rfl, Or.inr ⟨p, hp, hne, ic, hic, Or.inl h⟩⟩
      · intro h
        exact hN c.Name ⟨c, hc, rfl, Or.inr ⟨p, hp, hne, ic, hic, Or.inr h⟩⟩
      · intro hnonempty
        constructor
        · intro h
          exact hA c.Alias ⟨c, hc, rfl, Or.inr ⟨p, hp, hne, ic, hic, hnonempty, Or.inr h⟩⟩
        · intro h
          exact hA c.Alias ⟨c, hc, rfl, Or.inr ⟨p, hp, hne, ic, hic, hnonempty, Or.inl h⟩⟩
  · intro h
    constructor
    · apply List.eq_nil_iff_forall_not_mem.mpr
      intro x hx
      rw [mem_collectedNames] at hx
      obtain ⟨c, hc, -, hb | ⟨p, hp, hne, ic, hic, hcol⟩⟩ := hx
      · obtain ⟨⟨h1, h2, -, -⟩, -⟩ := h c hc
        rcases hb with hb | hb
        · rw [h1] at hb
          exact Bool.false_ne_true hb
        · rw [h2] at hb
          exact Bool.false_ne_true hb
      · obtain ⟨h1, h2, -⟩ := (h c hc).2 p hp (fun h => hne h.symm) ic hic
        rcases hcol with hcol | hcol
        · exact h1 hcol
        · exact h2 hcol
    · apply List.eq_nil_iff_forall_not_mem.mpr
      intro x hx
      rw [mem_collectedAliases] at hx
      obtain ⟨c, hc, -, hb | ⟨p, hp, hne, ic, hic, hnonempty, hcol⟩⟩ := hx
      · obtain ⟨⟨-, -, h3, h4⟩, -⟩ := h c hc
        rcases hb with hb | hb
        · rw [h4] at hb
          exact Bool.false_ne_true hb
        · rw [h3] at hb
          exact Bool.false_ne_true hb
      · obtain ⟨-, -, h3⟩ := (h c hc).2 p hp (fun h => hne h.symm) ic hic
        rcases hcol with hcol | hcol
        · exact (h3 hnonempty).2 hcol
        · exact (h3 hnonempty).1 hcol

/-- C4: the result of `GetAndValidatePlugin` is the result obtained once every
installed plugin with the candidate's `Name` is removed from the store; and a
structurally valid candidate none of whose tokens is a built-in, and whose
tokens collide with installed commands only in plugins of its own `Name`,
validates successfully. -/
theorem GetAndValidatePlugin_same_name_exemption {V : Type} [Inhabited V] (lib : Lib V)
    (actor : Actor V) (pluginMetadata : PluginMetadata V) (commandList : CommandList)
    (path : String) :
    (actor.GetAndValidatePlugin lib pluginMetadata commandList path).1 =
      ((actor.withoutPluginsNamed (pluginMetadata.GetMetadata path).1.Name).GetAndValidatePlugin
        lib pluginMetadata commandList path).1 ∧
    ∀ plugin : Plugin V, pluginMetadata.GetMetadata path = (plugin, none) →
      plugin.Name ≠ "" → plugin.Commands ≠ [] →
      (∀ c ∈ plugin.Commands,
        commandList.HasCommand c.Name = false ∧ commandList.HasAlias c.Name = false ∧
        commandList.HasCommand c.Alias = false ∧ commandList.HasAlias c.Alias = false) →
      (∀ p ∈ actor.config.plugins, ∀ c ∈ plugin.Commands, ∀ ic ∈ p.Commands,
        (c.Name = ic.Name ∨ c.Name = ic.Alias ∨
          (c.Alias ≠ "" ∧ (c.Alias = ic.Alias ∨ c.Alias = ic.Name))) →
        p.Name = plugin.Name) →
      (actor.GetAndValidatePlugin lib pluginMetadata commandList path).1 = (plugin, none) := by
  constructor
  · rcases hmeta : pluginMetadata.GetMetadata path with ⟨plugin, _ | err⟩
    · by_cases hinvalid : plugin.Name = "" ∨ plugin.Commands = []
      · rw [GetAndValidatePlugin_invalid lib actor pluginMetadata commandList path plugin hmeta
          hinvalid, GetAndValidatePlugin_invalid lib _ pluginMetadata commandList path plugin
          hmeta hinvalid]
      · have hname : plugin.Name ≠ "" := fun h => hinvalid (Or.inl h)
        have hcmds : plugin.Commands ≠ [] := fun h => hinvalid (Or.inr h)
        rw [GetAndValidatePlugin_valid lib actor pluginMetadata commandList path plugin hmeta
          hname hcmds, GetAndValidatePlugin_valid lib _ pluginMetadata commandList path plugin
          hmeta hname hcmds]
        simp only [Actor.withoutPluginsNamed, conflictOf, collectedNames_filter,
          collectedAliases_filter]
    · rw [GetAndValidatePlugin_extractError lib actor pluginMetadata commandList path plugin
        err hmeta, GetAndValidatePlugin_extractError lib _ pluginMetadata commandList path
        plugin err hmeta]
  · intro plugin hmeta hname hcmds hbuiltin hsame
    rw [GetAndValidatePlugin_valid lib actor pluginMetadata commandList path plugin hmeta
      hname hcmds]
    have hnil := (collected_nil_iff commandList actor.config.plugins plugin).mpr (by
      intro c hc
      refine ⟨hbuiltin c hc, ?_⟩
      intro p hp hdiff ic hic
      refine ⟨?_, ?_, ?_⟩
      · exact fun h => hdiff (hsame p hp c hc ic hic (Or.inl h))
      · exact fun h => hdiff (hsame p hp c hc ic hic (Or.inr (Or.inl h)))
      · intro hnonempty
        exact ⟨fun h => hdiff (hsame p hp c hc ic hic (Or.inr (Or.inr ⟨hnonempty, Or.inr h⟩))),
          fun h => hdiff (hsame p hp c hc ic hic (Or.inr (Or.inr ⟨hnonempty, Or.inl h⟩)))⟩)
    simp only [if_pos hnil]

/-- The candidate `foo`, whose command `bar` and alias `list` are those of the
installed earlier version of `foo`, validates successfully. -/
theorem GetAndValidatePlugin_same_name_exemption_witness :
    ((sampleActor [installedFoo]).GetAndValidatePlugin sampleLib (sampleExtractor fooBarList)
      sampleRegistry "/tmp/foo").1 = (fooBarList, none) :=
  (GetAndValidatePlugin_same_name_exemption sampleLib (sampleActor [installedFoo])
    (sampleExtractor fooBarList) sampleRegistry "/tmp/foo").2 fooBarList rfl (by decide)
    (by decide) (by decide) (by decide)

/-! ## Successful validation -/

/-- C5: whenever `GetAndValidatePlugin` returns a plugin without error, that
plugin is the one the extractor returned, it has a non-empty `Name` and at
least one command, and for each of its commands `c`: neither `c.Name` nor
`c.Alias` is a built-in command or alias, `c.Name` equals no command `Name` or
`Alias` of an installed plugin with a different plugin `Name`, and `c.Alias`,
when non-empty, equals none either. -/
theorem GetAndValidatePlugin_success_sound {V : Type} [Inhabited V] (lib : Lib V)
    (actor : Actor V) (pluginMetadata : PluginMetadata V) (commandList : CommandList)
    (path : String)
    (hok : (actor.GetAndValidatePlugin lib pluginMetadata commandList path).1.2 = none) :
    (actor.GetAndValidatePlugin lib pluginMetadata commandList path).1.1 =
      (pluginMetadata.GetMetadata path).1 ∧
    (actor.GetAndValidatePlugin lib pluginMetadata commandList path).1.1.Name ≠ "" ∧
    (actor.GetAndValidatePlugin lib pluginMetadata commandList path).1.1.Commands ≠ [] ∧
    ∀ c ∈ (actor.GetAndValidatePlugin lib pluginMetadata commandList path).1.1.Commands,
      (commandList.HasCommand c.Name = false ∧ commandList.HasAlias c.Name = false ∧
        commandList.HasCommand c.Alias = false ∧ commandList.HasAlias c.Alias = false) ∧
      ∀ p ∈ actor.config.plugins,
        p.Name ≠ (actor.GetAndValidatePlugin lib pluginMetadata commandList path).1.1.Name →
        ∀ ic ∈ p.Commands,
          c.Name ≠ ic.Name ∧ c.Name ≠ ic.Alias ∧
          (c.Alias ≠ "" → c.Alias ≠ ic.Name ∧ c.Alias ≠ ic.Alias) := by
  rcases hmeta : pluginMetadata.GetMetadata path with ⟨plugin, _ | err⟩
  · by_cases hinvalid : plugin.Name = "" ∨ plugin.Commands = []
    · rw [GetAndValidatePlugin_invalid lib actor pluginMetadata commandList path plugin hmeta
        hinvalid] at hok
      exact absurd hok (by simp)
    · have hname : plugin.Name ≠ "" := fun h => hinvalid (Or.inl h)
      have hcmds : plugin.Commands ≠ [] := fun h => hinvalid (Or.inr h)
      rw [GetAndValidatePlugin_valid lib actor pluginMetadata commandList path plugin hmeta
        hname hcmds] at hok ⊢
      by_cases hnil : collectedNames commandList actor.config.plugins plugin = [] ∧
          collectedAliases commandList actor.config.plugins plugin = []
      · rw [if_pos hnil]
        exact ⟨rfl, hname, hcmds,
          (collected_nil_iff commandList actor.config.plugins plugin).mp hnil⟩
      · simp only [if_neg hnil] at hok
        exact absurd hok (by simp)
  · rw [GetAndValidatePlugin_extractError lib actor pluginMetadata commandList path plugin err
      hmeta] at hok
    exact absurd hok (by simp)

/-- The candidate `foo` with the command `do-foo` is accepted next to the
installed plugin `baz`, and the listed properties hold of it. -/
theorem GetAndValidatePlugin_success_sound_witness :
    ((sampleActor [installedBaz]).GetAndValidatePlugin sampleLib (sampleExtractor fooDoFoo)
      sampleRegistry "/tmp/foo").1.2 = none ∧
    ((sampleActor [installedBaz]).GetAndValidatePlugin sampleLib (sampleExtractor fooDoFoo)
      sampleRegistry "/tmp/foo").1.1.Name ≠ "" :=
  ⟨by decide, (GetAndValidatePlugin_success_sound sampleLib (sampleActor [installedBaz])
    (sampleExtractor fooDoFoo) sampleRegistry "/tmp/foo" (by decide)).2.1⟩

/-- C8: for a structurally valid candidate with no collision against the
registry or against installed plugins of a different name,
`GetAndValidatePlugin` returns no error and the plugin the Metadata Extractor
returned, with every field as the extractor gave it, `Location` included. -/
theorem GetAndValidatePlugin_success {V : Type} [Inhabited V] (lib : Lib V)
    (actor : Actor V) (pluginMetadata : PluginMetadata V) (commandList : CommandList)
    (path : String) (plugin : Plugin V)
    (hmeta : pluginMetadata.GetMetadata path = (plugin, none))
    (hname : plugin.Name ≠ "") (hcmds : plugin.Commands ≠ [])
    (hfree : ∀ c ∈ plugin.Commands,
      (commandList.HasCommand c.Name = false ∧ commandList.HasAlias c.Name = false ∧
        commandList.HasCommand c.Alias = false ∧ commandList.HasAlias c.Alias = false) ∧
      ∀ p ∈ actor.config.plugins, p.Name ≠ plugin.Name → ∀ ic ∈ p.Commands,
        c.Name ≠ ic.Name ∧ c.Name ≠ ic.Alias ∧
        (c.Alias ≠ "" → c.Alias ≠ ic.Name ∧ c.Alias ≠ ic.Alias)) :
    (actor.GetAndValidatePlugin lib pluginMetadata commandList path).1 = (plugin, none) ∧
    (actor.GetAndValidatePlugin lib pluginMetadata commandList path).1.1.Name = plugin.Name ∧
    (actor.GetAndValidatePlugin lib pluginMetadata commandList path).1.1.Version =
      plugin.Version ∧
    (actor.GetAndValidatePlugin lib pluginMetadata commandList path).1.1.Commands =
      plugin.Commands ∧
    (actor.GetAndValidatePlugin lib pluginMetadata commandList path).1.1.Location =
      plugin.Location := by
  have hnil := (collected_nil_iff commandList actor.config.plugins plugin).mpr hfree
  rw [GetAndValidatePlugin_valid lib actor pluginMetadata commandList path plugin hmeta hname
    hcmds]
  simp only [if_pos hnil, and_self]

/-- The candidate `foo` with the command `do-foo` comes back as extracted, with
its `Location` still empty. -/
theorem GetAndValidatePlugin_success_witness :
    ((sampleActor [installedBaz]).GetAndValidatePlugin sampleLib (sampleExtractor fooDoFoo)
      sampleRegistry "/tmp/foo").1 = (fooDoFoo, none) ∧
    ((sampleActor [installedBaz]).GetAndValidatePlugin sampleLib (sampleExtractor fooDoFoo)
      sampleRegistry "/tmp/foo").1.1.Location = "" :=
  ⟨(GetAndValidatePlugin_success sampleLib (sampleActor [installedBaz])
      (sampleExtractor fooDoFoo) sampleRegistry "/tmp/foo" fooDoFoo rfl (by decide)
      (by decide) (by decide)).1,
    (GetAndValidatePlugin_success sampleLib (sampleActor [installedBaz])
      (sampleExtractor fooDoFoo) sampleRegistry "/tmp/foo" fooDoFoo rfl (by decide)
      (by decide) (by decide)).2.2.2.2⟩

/-- C9: if the Metadata Extractor fails on `path` with the error `err`,
`GetAndValidatePlugin` returns `err` itself together with the zero plugin,
whatever the registry answers and whatever plugins are installed. -/
theorem GetAndValidatePlugin_extraction_failure {V : Type} [Inhabited V] (lib : Lib V)
    (actor : Actor V) (pluginMetadata : PluginMetadata V) (commandList : CommandList)
    (path : String) (plugin : Plugin V) (err : Error)
    (hmeta : pluginMetadata.GetMetadata path = (plugin, some err)) :
    (actor.GetAndValidatePlugin lib pluginMetadata commandList path).1 =
      (Plugin.zero V, some err) := by
  rw [GetAndValidatePlugin_extractError lib actor pluginMetadata commandList path plugin err
    hmeta]

/-- An extractor that fails with an error of its own hands that error on, also
next to an installed plugin. -/
theorem GetAndValidatePlugin_extraction_failure_witness :
    (failingExtractor (Error.other "exec format error")).GetMetadata "/tmp/foo" =
      (Plugin.zero Nat, some (Error.other "exec format error")) ∧
    ((sampleActor [installedBaz]).GetAndValidatePlugin sampleLib
      (failingExtractor (Error.other "exec format error")) sampleRegistry "/tmp/foo").1 =
      (Plugin.zero Nat, some (Error.other "exec format error")) :=
  ⟨rfl, GetAndValidatePlugin_extraction_failure sampleLib (sampleActor [installedBaz])
    (failingExtractor (Error.other "exec format error")) sampleRegistry "/tmp/foo"
    (Plugin.zero Nat) (Error.other "exec format error") rfl⟩

/-! ## The Config Store -/

/-- C10: `GetAndValidatePlugin` never mutates the Config Store. Whatever the
outcome, the installed plugins and the plugin home are those of before the
call, `Plugins()` answers after the call what it answered before, and the
calls made on the store during the call are calls of `Plugins` only: neither
`AddPlugin` nor `WritePluginConfig` is invoked. -/
theorem GetAndValidatePlugin_config_unchanged {V : Type} [Inhabited V] (lib : Lib V)
    (actor : Actor V) (pluginMetadata : PluginMetadata V) (commandList : CommandList)
    (path : String) :
    (actor.GetAndValidatePlugin lib pluginMetadata commandList path).2.config.plugins =
      actor.config.plugins ∧
    (actor.GetAndValidatePlugin lib pluginMetadata commandList path).2.config.pluginHome =
      actor.config.pluginHome ∧
    (actor.GetAndValidatePlugin lib pluginMetadata commandList path).2.config.Plugins.1 =
      actor.config.Plugins.1 ∧
    ∃ made : List (ConfigCall V),
      (actor.GetAndValidatePlugin lib pluginMetadata commandList path).2.config.calls =
        actor.config.calls ++ made ∧
      (∀ call ∈ made, call = ConfigCall.Plugins) ∧
      (∀ plugin : Plugin V, ConfigCall.AddPlugin plugin ∉ made) ∧
      ConfigCall.WritePluginConfig ∉ made := by
  rcases hmeta : pluginMetadata.GetMetadata path with ⟨plugin, _ | err⟩
  · by_cases hinvalid : plugin.Name = "" ∨ plugin.Commands = []
    · rw [GetAndValidatePlugin_invalid lib actor pluginMetadata commandList path plugin hmeta
        hinvalid]
      exact ⟨rfl, rfl, rfl, [], by simp, by simp, by simp, by simp⟩
    · have hname : plugin.Name ≠ "" := fun h => hinvalid (Or.inl h)
      have hcmds : plugin.Commands ≠ [] := fun h => hinvalid (Or.inr h)
      rw [GetAndValidatePlugin_valid lib actor pluginMetadata commandList path plugin hmeta
        hname hcmds]
      exact ⟨rfl, rfl, rfl, [ConfigCall.Plugins], rfl, by simp, by simp, by simp⟩
  · rw [GetAndValidatePlugin_extractError lib actor pluginMetadata commandList path plugin err
      hmeta]
    exact ⟨rfl, rfl, rfl, [], by simp, by simp, by simp, by simp⟩

/-! ## The content of the conflict report -/

/-- The outcome of the sample run of `fooCrowded` next to `installedBaz`. -/
theorem fooCrowded_result :
    ((sampleActor [installedBaz]).GetAndValidatePlugin sampleLib (sampleExtractor fooCrowded)
      sampleRegistry "/tmp/foo").1 =
      (Plugin.zero Nat, some (Error.actorPluginCommandsConflict fooCrowdedConflict)) := by
  simp only [Actor.GetAndValidatePlugin, sampleLib, String.lt_iff_toList_lt]
  decide

/-- A conflict error returned after a successful extraction is the one built
from the collected tokens. -/
theorem conflict_eq_conflictOf {V : Type} [Inhabited V] (lib : Lib V) (actor : Actor V)
    (pluginMetadata : PluginMetadata V) (commandList : CommandList) (path : String)
    (plugin : Plugin V) (hmeta : pluginMetadata.GetMetadata path = (plugin, none))
    (e : PluginCommandsConflictError)
    (herr : (actor.GetAndValidatePlugin lib pluginMetadata commandList path).1.2 =
      some (Error.actorPluginCommandsConflict e)) :
    plugin.Name ≠ "" ∧ plugin.Commands ≠ [] ∧
      e = conflictOf lib commandList actor.config.plugins plugin := by
  by_cases hinvalid : plugin.Name = "" ∨ plugin.Commands = []
  · rw [GetAndValidatePlugin_invalid lib actor pluginMetadata commandList path plugin hmeta
      hinvalid] at herr
    simp at herr
  · have hname : plugin.Name ≠ "" := fun h => hinvalid (Or.inl h)
    have hcmds : plugin.Commands ≠ [] := fun h => hinvalid (Or.inr h)
    rw [GetAndValidatePlugin_valid lib actor pluginMetadata commandList path plugin hmeta
      hname hcmds] at herr
    by_cases hnil : collectedNames commandList actor.config.plugins plugin = [] ∧
        collectedAliases commandList actor.config.plugins plugin = []
    · rw [if_pos hnil] at herr
      simp at herr
    · rw [if_neg hnil] at herr
      simp only [Option.some.injEq, Error.actorPluginCommandsConflict.injEq] at herr
      exact ⟨hname, hcmds, herr.symm⟩

theorem flatMap_builtin_eq_filter_map {α : Type} (l : List α) (b : α → Bool)
    (f : α → String) :
    (l.flatMap fun c => if b c then [f c] else []) = (l.filter b).map f := by
  induction l with
  | nil => rfl
  | cons c rest ih =>
    rw [List.flatMap_cons, ih, List.filter_cons]
    cases hb : b c <;> simp

theorem nameHits_eq_triples {V : Type} (c : PluginCommand) (p : Plugin V)
    (cmds : List PluginCommand) :
    cmds.flatMap (nameHits c) =
      ((cmds.map fun ic => (c, p, ic)).filter fun t =>
        decide (t.1.Name = t.2.2.Name ∨ t.1.Name = t.2.2.Alias)).map (fun t => t.1.Name) := by
  induction cmds with
  | nil => rfl
  | cons ic rest ih =>
    rw [List.flatMap_cons, ih, List.map_cons, List.filter_cons]
    unfold nameHits
    by_cases h : c.Name = ic.Name ∨ c.Name = ic.Alias
    · simp [h]
    · simp [h]

theorem aliasHits_eq_triples {V : Type} (c : PluginCommand) (p : Plugin V)
    (cmds : List PluginCommand) :
    cmds.flatMap (aliasHits c) =
      ((cmds.map fun ic => (c, p, ic)).filter fun t =>
        decide (t.1.Alias ≠ "" ∧ (t.1.Alias = t.2.2.Alias ∨ t.1.Alias = t.2.2.Name))).map
        (fun t => t.1.Alias) := by
  induction cmds with
  | nil => rfl
  | cons ic rest ih =>
    rw [List.flatMap_cons, ih, List.map_cons, List.filter_cons]
    unfold aliasHits
    by_cases h : c.Alias ≠ "" ∧ (c.Alias = ic.Alias ∨ c.Alias = ic.Name)
    · simp [h]
    · simp [h]

theorem installedNameHits_eq_triples {V : Type} (installedPlugins : List (Plugin V))
    (pluginName : String) (c : PluginCommand) :
    installedNameHits installedPlugins pluginName c =
      (((installedPlugins.filter fun p => decide (p.Name ≠ pluginName)).flatMap fun p =>
        p.Commands.map fun ic => (c, p, ic)).filter fun t =>
          decide (t.1.Name = t.2.2.Name ∨ t.1.Name = t.2.2.Alias)).map (fun t => t.1.Name) := by
  rw [← installedNameHits_filter]
  unfold installedNameHits
  rw [List.filter_flatMap, List.map_flatMap]
  apply List.flatMap_congr
  intro p hp
  have hne : ¬ pluginName = p.Name := by
    have := (List.mem_filter.mp hp).2
    simp only [ne_eq, decide_eq_true_eq] at this
    exact fun h => this h.symm
  rw [if_neg hne]
  exact nameHits_eq_triples c p p.Commands

theorem installedAliasHits_eq_triples {V : Type} (installedPlugins : List (Plugin V))
    (pluginName : String) (c : PluginCommand) :
    installedAliasHits installedPlugins pluginName c =
      (((installedPlugins.filter fun p => decide (p.Name ≠ pluginName)).flatMap fun p =>
        p.Commands.map fun ic => (c, p, ic)).filter fun t =>
          decide (t.1.Alias ≠ "" ∧ (t.1.Alias = t.2.2.Alias ∨ t.1.Alias = t.2.2.Name))).map
        (fun t => t.1.Alias) := by
  rw [← installedAliasHits_filter]
  unfold installedAliasHits
  rw [List.filter_flatMap, List.map_flatMap]
  apply List.flatMap_congr
  intro p hp
  have hne : ¬ pluginName = p.Name := by
    have := (List.mem_filter.mp hp).2
    simp only [ne_eq, decide_eq_true_eq] at this
    exact fun h => this h.symm
  rw [if_neg hne]
  exact aliasHits_eq_triples c p p.Commands

theorem collectedNames_perm_spec {V : Type} (commandList : CommandList)
    (installedPlugins : List (Plugin V)) (plugin : Plugin V) :
    (collectedNames commandList installedPlugins plugin).Perm
      (specConflictNames commandList installedPlugins plugin) := by
  unfold collectedNames commandNameHits specConflictNames conflictTriples
  refine (List.flatMap_append_perm _ _ _).symm.trans ?_
  rw [flatMap_builtin_eq_filter_map plugin.Commands
    (fun c => commandList.HasCommand c.Name || commandList.HasAlias c.Name) (fun c => c.Name),
    List.filter_flatMap, List.map_flatMap]
  rw [funext (installedNameHits_eq_triples installedPlugins plugin.Name)]

theorem collectedAliases_perm_spec {V : Type} (commandList : CommandList)
    (installedPlugins : List (Plugin V)) (plugin : Plugin V) :
    (collectedAliases commandList installedPlugins plugin).Perm
      (specConflictAliases commandList installedPlugins plugin) := by
  unfold collectedAliases commandAliasHits specConflictAliases conflictTriples
  refine (List.flatMap_append_perm _ _ _).symm.trans ?_
  rw [flatMap_builtin_eq_filter_map plugin.Commands
    (fun c => commandList.HasAlias c.Alias || commandList.HasCommand c.Alias)
    (fun c => c.Alias), List.filter_flatMap, List.map_flatMap]
  rw [funext (installedAliasHits_eq_triples installedPlugins plugin.Name)]

/-- C6: duplicates are preserved, one entry per collision. When validation of
the candidate the extractor returned ends in a conflict, `CommandNames` is, as
a multiset, one copy of `c.Name` for each candidate command `c` whose `Name`
is a built-in command or alias plus one copy of `c.Name` for each triple of a
candidate command `c`, an installed plugin `p` with a different `Name` and a
command `ic` of `p` with `c.Name == ic.Name` or `c.Name == ic.Alias`; and
`CommandAliases` is the analogous multiset for `c.Alias`, the installed-plugin
part only for a non-empty `c.Alias`. -/
theorem GetAndValidatePlugin_conflict_multiset {V : Type} [Inhabited V] (lib : Lib V)
    (actor : Actor V) (pluginMetadata : PluginMetadata V) (commandList : CommandList)
    (path : String) (plugin : Plugin V)
    (hmeta : pluginMetadata.GetMetadata path = (plugin, none))
    (e : PluginCommandsConflictError)
    (herr : (actor.GetAndValidatePlugin lib pluginMetadata commandList path).1.2 =
      some (Error.actorPluginCommandsConflict e)) :
    e.CommandNames.Perm (specConflictNames commandList actor.config.plugins plugin) ∧
    e.CommandAliases.Perm (specConflictAliases commandList actor.config.plugins plugin) := by
  obtain ⟨-, -, rfl⟩ :=
    conflict_eq_conflictOf lib actor pluginMetadata commandList path plugin hmeta e herr
  exact ⟨(sortSlice_perm _ _).trans (collectedNames_perm_spec _ _ _),
    (sortSlice_perm _ _).trans (collectedAliases_perm_spec _ _ _)⟩

/-- The two commands `push` of `fooCrowded` collide with the same built-in and
give two entries `push`; every other collision gives one entry. -/
theorem GetAndValidatePlugin_conflict_multiset_witness :
    ((sampleActor [installedBaz]).GetAndValidatePlugin sampleLib (sampleExtractor fooCrowded)
      sampleRegistry "/tmp/foo").1.2 =
      some (Error.actorPluginCommandsConflict fooCrowdedConflict) ∧
    specConflictNames sampleRegistry [installedBaz] fooCrowded =
      ["push", "Apps", "push", "list"] ∧
    specConflictAliases sampleRegistry [installedBaz] fooCrowded = ["p", "x", "ls"] ∧
    List.Perm ["Apps", "list", "push", "push"]
      (specConflictNames sampleRegistry [installedBaz] fooCrowded) ∧
    List.Perm ["ls", "p", "x"] (specConflictAliases sampleRegistry [installedBaz] fooCrowded) :=
  ⟨congrArg Prod.snd fooCrowded_result, by decide, by decide,
    GetAndValidatePlugin_conflict_multiset sampleLib (sampleActor [installedBaz])
      (sampleExtractor fooCrowded) sampleRegistry "/tmp/foo" fooCrowded rfl fooCrowdedConflict
      (congrArg Prod.snd fooCrowded_result)⟩

/-- C7: when validation of the candidate the extractor returned ends in a
conflict, `CommandNames` and `CommandAliases` are sorted ascending
case-insensitively: for every adjacent pair `x`, `y` the lower-cased `y` is
not strictly less than the lower-cased `x` (and so the lower-cased entries
ascend along the whole list); and each list is a permutation of the tokens
that the scan collected, so no token is added, dropped or changed. -/
theorem GetAndValidatePlugin_conflict_sorted {V : Type} [Inhabited V] (lib : Lib V)
    (actor : Actor V) (pluginMetadata : PluginMetadata V) (commandList : CommandList)
    (path : String) (plugin : Plugin V)
    (hmeta : pluginMetadata.GetMetadata path = (plugin, none))
    (e : PluginCommandsConflictError)
    (herr : (actor.GetAndValidatePlugin lib pluginMetadata commandList path).1.2 =
      some (Error.actorPluginCommandsConflict e)) :
    List.Chain' (fun x y => ¬ lib.ToLower y < lib.ToLower x) e.CommandNames ∧
    List.Chain' (fun x y => ¬ lib.ToLower y < lib.ToLower x) e.CommandAliases ∧
    List.Pairwise (fun x y => lib.ToLower x ≤ lib.ToLower y) e.CommandNames ∧
    List.Pairwise (fun x y => lib.ToLower x ≤ lib.ToLower y) e.CommandAliases ∧
    e.CommandNames.Perm
      (plugin.Commands.foldl (scanCommand commandList actor.config.plugins plugin.Name)
        ([], [])).1 ∧
    e.CommandAliases.Perm
      (plugin.Commands.foldl (scanCommand commandList actor.config.plugins plugin.Name)
        ([], [])).2 := by
  obtain ⟨-, -, rfl⟩ :=
    conflict_eq_conflictOf lib actor pluginMetadata commandList path plugin hmeta e herr
  have hchain : ∀ l : List String,
      List.Chain' (fun x y => ¬ lib.ToLower y < lib.ToLower x) (sortSlice (lessFold lib) l) := by
    intro l
    refine (sortSlice_chain (lessFold lib) (lessFold_asymm lib) l).imp ?_
    intro x y hxy hlt
    have : lessFold lib y x = true := decide_eq_true hlt
    rw [hxy] at this
    exact Bool.false_ne_true this
  have hpair : ∀ l : List String,
      List.Chain' (fun x y => ¬ lib.ToLower y < lib.ToLower x) l →
      List.Pairwise (fun x y => lib.ToLower x ≤ lib.ToLower y) l := by
    intro l hl
    haveI : IsTrans String (fun x y => lib.ToLower x ≤ lib.ToLower y) :=
      ⟨fun _ _ _ hab hbc => le_trans hab hbc⟩
    exact List.chain'_iff_pairwise.mp (hl.imp fun {_ _} h => not_lt.mp h)
  rw [foldl_scanCommand]
  exact ⟨hchain _, hchain _, hpair _ (hchain _), hpair _ (hchain _),
    by simpa using sortSlice_perm (lessFold lib) _,
    by simpa using sortSlice_perm (lessFold lib) _⟩

/-- The conflict of `fooCrowded` lists `Apps` before `list` and `push`: the
entries are ordered without regard to case, and they are the collected tokens
`push`, `Apps`, `push`, `list` and `p`, `x`, `ls`. -/
theorem GetAndValidatePlugin_conflict_sorted_witness :
    ((sampleActor [installedBaz]).GetAndValidatePlugin sampleLib (sampleExtractor fooCrowded)
      sampleRegistry "/tmp/foo").1.2 =
      some (Error.actorPluginCommandsConflict fooCrowdedConflict) ∧
    (fooCrowded.Commands.foldl (scanCommand sampleRegistry [installedBaz] "foo") ([], [])) =
      (["push", "Apps", "push", "list"], ["p", "x", "ls"]) ∧
    List.Chain' (fun x y => ¬ sampleLib.ToLower y < sampleLib.ToLower x)
      ["Apps", "list", "push", "push"] ∧
    List.Perm ["Apps", "list", "push", "push"] ["push", "Apps", "push", "list"] :=
  ⟨congrArg Prod.snd fooCrowded_result, by decide,
    (GetAndValidatePlugin_conflict_sorted sampleLib (sampleActor [installedBaz])
      (sampleExtractor fooCrowded) sampleRegistry "/tmp/foo" fooCrowded rfl fooCrowdedConflict
      (congrArg Prod.snd fooCrowded_result)).1,
    (GetAndValidatePlugin_conflict_sorted sampleLib (sampleActor [installedBaz])
      (sampleExtractor fooCrowded) sampleRegistry "/tmp/foo" fooCrowded rfl fooCrowdedConflict
      (congrArg Prod.snd fooCrowded_result)).2.2.2.2.1⟩

end pluginaction

namespace shared

/-! ## The conversion of actor errors -/

/-- C14: `HandleError` maps the actor's `RepositoryNameTakenError`,
`RepositoryURLTakenError` and `AddPluginRepositoryError` to the command-level
errors of the same kind, and copies every field to the field of the same name. -/
theorem HandleError_repository_errors (name url message : String) :
    HandleError (some (Error.actorRepositoryNameTaken { Name := name })) =
      some (Error.sharedRepositoryNameTaken { Name := name }) ∧
    HandleError (some (Error.actorRepositoryURLTaken { Name := name, URL := url })) =
      some (Error.sharedRepositoryURLTaken { Name := name, URL := url }) ∧
    HandleError (some (Error.actorAddPluginRepository
        { Name := name, URL := url, Message := message })) =
      some (Error.sharedAddPluginRepository { Name := name, URL := url, Message := message }) :=
  ⟨rfl, rfl, rfl⟩

/-- C18: `HandleError` turns the actor's conflict error into the command-level
conflict error with the same `PluginName` and `PluginVersion`, with
`CommandNames` the actor's `CommandNames` and `CommandAliases` the actor's
`CommandAliases`; it turns the actor's `PluginInvalidError` with path `p` into
the command-level one with `Path` `p` and the actor error's message template
as `WrappedErrMessage`; an error of a kind that the switch does not list is
returned unchanged; and so applying `HandleError` twice is applying it once. -/
theorem HandleError_plugin_errors :
    (∀ e : pluginaction.PluginCommandsConflictError,
      HandleError (some (Error.actorPluginCommandsConflict e)) =
        some (Error.sharedPluginCommandsConflict
          { PluginName := e.PluginName
            PluginVersion := e.PluginVersion
            CommandNames := e.CommandNames
            CommandAliases := e.CommandAliases })) ∧
    (∀ p : String,
      HandleError (some (Error.actorPluginInvalid { Path := p })) =
        some (Error.sharedPluginInvalid
          { Path := p
            WrappedErrMessage :=
              "File \x7b\x7b.Path\x7d\x7d is not a valid cf CLI plugin binary." })) ∧
    (∀ err : Option Error,
      (∀ e, err ≠ some (Error.actorPluginNotFound e)) →
      (∀ e, err ≠ some (Error.actorGettingPluginRepository e)) →
      (∀ e, err ≠ some (Error.actorRepositoryNameTaken e)) →
      (∀ e, err ≠ some (Error.actorRepositoryURLTaken e)) →
      (∀ e, err ≠ some (Error.actorAddPluginRepository e)) →
      (∀ e, err ≠ some (Error.actorPluginInvalid e)) →
      (∀ e, err ≠ some (Error.actorPluginCommandsConflict e)) →
      HandleError err = err) ∧
    (∀ err : Option Error, HandleError (HandleError err) = HandleError err) := by
  refine ⟨fun _ => rfl, fun _ => rfl, ?_, ?_⟩
  · intro err h1 h2 h3 h4 h5 h6 h7
    rcases err with _ | e
    · rfl
    · cases e with
      | actorPluginNotFound e => exact absurd rfl (h1 e)
      | actorGettingPluginRepository e => exact absurd rfl (h2 e)
      | actorRepositoryNameTaken e => exact absurd rfl (h3 e)
      | actorRepositoryURLTaken e => exact absurd rfl (h4 e)
      | actorAddPluginRepository e => exact absurd rfl (h5 e)
      | actorPluginInvalid e => exact absurd rfl (h6 e)
      | actorPluginCommandsConflict e => exact absurd rfl (h7 e)
      | _ => rfl
  · intro err
    rcases err with _ | e
    · rfl
    · cases e <;> rfl

/-- An I/O error, a kind that the switch does not list, passes through
`HandleError` unchanged. -/
theorem HandleError_plugin_errors_witness :
    HandleError (some (Error.other "permission denied")) =
      some (Error.other "permission denied") :=
  HandleError_plugin_errors.2.2.1 (some (Error.other "permission denied"))
    (fun _ h => by simp at h) (fun _ h => by simp at h) (fun _ h => by simp at h)
    (fun _ h => by simp at h) (fun _ h => by simp at h) (fun _ h => by simp at h)
    (fun _ h => by simp at h)

end shared

namespace pluginaction

/-! ## Determinism of the validation -/

/-- The outcome of `GetAndValidatePlugin` depends on the actor only through
the installed plugins of its store. -/
theorem GetAndValidatePlugin_congr_actor {V : Type} [Inhabited V] (lib : Lib V)
    (actor actor2 : Actor V) (pluginMetadata : PluginMetadata V) (commandList : CommandList)
    (path : String) (hplugins : actor.config.plugins = actor2.config.plugins) :
    (actor.GetAndValidatePlugin lib pluginMetadata commandList path).1 =
      (actor2.GetAndValidatePlugin lib pluginMetadata commandList path).1 := by
  rcases hmeta : pluginMetadata.GetMetadata path with ⟨plugin, _ | err⟩
  · by_cases hinvalid : plugin.Name = "" ∨ plugin.Commands = []
    · rw [GetAndValidatePlugin_invalid lib actor pluginMetadata commandList path plugin hmeta
        hinvalid, GetAndValidatePlugin_invalid lib actor2 pluginMetadata commandList path plugin
        hmeta hinvalid]
    · have hname : plugin.Name ≠ "" := fun h => hinvalid (Or.inl h)
      have hcmds : plugin.Commands ≠ [] := fun h => hinvalid (Or.inr h)
      rw [GetAndValidatePlugin_valid lib actor pluginMetadata commandList path plugin hmeta
        hname hcmds, GetAndValidatePlugin_valid lib actor2 pluginMetadata commandList path
        plugin hmeta hname hcmds, hplugins]
  · rw [GetAndValidatePlugin_extractError lib actor pluginMetadata commandList path plugin
      err hmeta, GetAndValidatePlugin_extractError lib actor2 pluginMetadata commandList path
      plugin err hmeta]

/-- The store that `GetAndValidatePlugin` leaves behind holds the installed
plugins it found. -/
theorem GetAndValidatePlugin_plugins_kept {V : Type} [Inhabited V] (lib : Lib V)
    (actor : Actor V) (pluginMetadata : PluginMetadata V) (commandList : CommandList)
    (path : String) :
    (actor.GetAndValidatePlugin lib pluginMetadata commandList path).2.config.plugins =
      actor.config.plugins := by
  rcases hmeta : pluginMetadata.GetMetadata path with ⟨plugin, _ | err⟩
  · by_cases hinvalid : plugin.Name = "" ∨ plugin.Commands = []
    · rw [GetAndValidatePlugin_invalid lib actor pluginMetadata commandList path plugin hmeta
        hinvalid]
    · rw [GetAndValidatePlugin_valid lib actor pluginMetadata commandList path plugin hmeta
        (fun h => hinvalid (Or.inl h)) (fun h => hinvalid (Or.inr h))]
      rfl
  · rw [GetAndValidatePlugin_extractError lib actor pluginMetadata commandList path plugin
      err hmeta]

/-- C16: idempotence of validation. When `GetAndValidatePlugin` succeeds,
calling it again with the same arguments on the state that the first call left
returns the same plugin and no error; and for any two actors, extractors and
registries, if the stores hold the same installed plugins, the extractors give
the same answer on `path` and the registries give the same answers, the two
calls return the same result. -/
theorem GetAndValidatePlugin_idempotent {V : Type} [Inhabited V] (lib : Lib V)
    (actor : Actor V) (pluginMetadata : PluginMetadata V) (commandList : CommandList)
    (path : String) :
    ((actor.GetAndValidatePlugin lib pluginMetadata commandList path).1.2 = none →
      ((actor.GetAndValidatePlugin lib pluginMetadata commandList path).2.GetAndValidatePlugin
          lib pluginMetadata commandList path).1 =
        (actor.GetAndValidatePlugin lib pluginMetadata commandList path).1 ∧
      ((actor.GetAndValidatePlugin lib pluginMetadata commandList path).2.GetAndValidatePlugin
          lib pluginMetadata commandList path).1.2 = none) ∧
    ∀ (actor2 : Actor V) (pluginMetadata2 : PluginMetadata V) (commandList2 : CommandList),
      actor.config.plugins = actor2.config.plugins →
      pluginMetadata.GetMetadata path = pluginMetadata2.GetMetadata path →
      (∀ token, commandList.HasCommand token = commandList2.HasCommand token) →
      (∀ token, commandList.HasAlias token = commandList2.HasAlias token) →
      (actor.GetAndValidatePlugin lib pluginMetadata commandList path).1 =
        (actor2.GetAndValidatePlugin lib pluginMetadata2 commandList2 path).1 := by
  have hsecond := GetAndValidatePlugin_congr_actor lib
    (actor.GetAndValidatePlugin lib pluginMetadata commandList path).2 actor pluginMetadata
    commandList path (GetAndValidatePlugin_plugins_kept lib actor pluginMetadata commandList path)
  constructor
  · intro hok
    exact ⟨hsecond, by rw [hsecond]; exact hok⟩
  · intro actor2 pluginMetadata2 commandList2 hplugins hmeta hcommand halias
    have hlist : commandList = commandList2 := by
      cases commandList
      cases commandList2
      simp only [CommandList.mk.injEq]
      exact ⟨funext hcommand, funext halias⟩
    subst hlist
    rw [GetAndValidatePlugin_congr_actor lib actor actor2 pluginMetadata commandList path
      hplugins]
    unfold Actor.GetAndValidatePlugin
    rw [hmeta]

/-- Validating `do-foo` a second time, on the store the first validation left,
gives the same plugin and no error. -/
theorem GetAndValidatePlugin_idempotent_witness :
    ((sampleActor [installedBaz]).GetAndValidatePlugin sampleLib (sampleExtractor fooDoFoo)
      sampleRegistry "/tmp/foo").1.2 = none ∧
    (((sampleActor [installedBaz]).GetAndValidatePlugin sampleLib (sampleExtractor fooDoFoo)
        sampleRegistry "/tmp/foo").2.GetAndValidatePlugin sampleLib (sampleExtractor fooDoFoo)
        sampleRegistry "/tmp/foo").1 = (fooDoFoo, none) :=
  ⟨by decide, ((GetAndValidatePlugin_idempotent sampleLib (sampleActor [installedBaz])
    (sampleExtractor fooDoFoo) sampleRegistry "/tmp/foo").1 (by decide)).1⟩

/-! ## Empty aliases -/

/-- C17 as stated fails: with a registry that answers that the empty string is
an alias, the candidate `foo`, whose only command `do-foo` has no alias and
whose name collides with nothing, is refused with a conflict whose
`CommandAliases` is the list of the empty string. The check against the
registry (`install.go`, line 118) asks about the alias whether or not it is
empty; only the comparison with installed commands (line 134) skips an empty
alias. -/
theorem GetAndValidatePlugin_blank_alias_reported :
    ((sampleActor []).GetAndValidatePlugin sampleLib (sampleExtractor fooDoFoo)
      blankAliasRegistry "/tmp/foo").1 =
      (Plugin.zero Nat, some (Error.actorPluginCommandsConflict
        { PluginName := "foo", PluginVersion := "1"
          CommandNames := [], CommandAliases := [""] })) ∧
    blankAliasRegistry.HasCommand "do-foo" = false ∧
    blankAliasRegistry.HasAlias "do-foo" = false := by
  decide

/-- C17, amended: for a registry that answers false on the empty string, both
as a command and as an alias, an empty alias is never reported as a conflict.
For every candidate the extractor returns and every list of installed plugins,
the `CommandAliases` of a conflict that `GetAndValidatePlugin` returns does not
contain the empty string; and a structurally valid candidate whose commands
all have empty aliases and whose names are no built-in command or alias and
equal no command `Name` or `Alias` of an installed plugin of a different name
validates successfully. -/
theorem GetAndValidatePlugin_blank_alias_skipped {V : Type} [Inhabited V] (lib : Lib V)
    (actor : Actor V) (pluginMetadata : PluginMetadata V) (commandList : CommandList)
    (path : String) (plugin : Plugin V)
    (hmeta : pluginMetadata.GetMetadata path = (plugin, none))
    (hcommand : commandList.HasCommand "" = false)
    (halias : commandList.HasAlias "" = false) :
    (∀ e : PluginCommandsConflictError,
      (actor.GetAndValidatePlugin lib pluginMetadata commandList path).1.2 =
        some (Error.actorPluginCommandsConflict e) →
      "" ∉ e.CommandAliases) ∧
    (plugin.Name ≠ "" → plugin.Commands ≠ [] →
      (∀ c ∈ plugin.Commands,
        c.Alias = "" ∧
        commandList.HasCommand c.Name = false ∧ commandList.HasAlias c.Name = false ∧
        ∀ p ∈ actor.config.plugins, p.Name ≠ plugin.Name → ∀ ic ∈ p.Commands,
          c.Name ≠ ic.Name ∧ c.Name ≠ ic.Alias) →
      (actor.GetAndValidatePlugin lib pluginMetadata commandList path).1 = (plugin, none)) := by
  constructor
  · intro e herr hmem
    obtain ⟨-, -, rfl⟩ :=
      conflict_eq_conflictOf lib actor pluginMetadata commandList path plugin hmeta e herr
    obtain ⟨c, -, hx, hb | ⟨p, -, -, ic, -, hnonempty, -⟩⟩ :=
      (mem_collectedAliases _ _ _ _).mp ((mem_conflictOf_aliases _ _ _ _ _).mp hmem)
    · rw [← hx] at hb
      rcases hb with hb | hb
      · rw [halias] at hb
        exact Bool.false_ne_true hb
      · rw [hcommand] at hb
        exact Bool.false_ne_true hb
    · exact hnonempty hx.symm
  · intro hname hcmds hfree
    have hnil := (collected_nil_iff commandList actor.config.plugins plugin).mpr (by
      intro c hc
      obtain ⟨hblank, h1, h2, hinstalled⟩ := hfree c hc
      refine ⟨⟨h1, h2, by rw [hblank]; exact hcommand, by rw [hblank]; exact halias⟩, ?_⟩
      intro p hp hdiff ic hic
      obtain ⟨h3, h4⟩ := hinstalled p hp hdiff ic hic
      exact ⟨h3, h4, fun hnonempty => absurd hblank hnonempty⟩)
    rw [GetAndValidatePlugin_valid lib actor pluginMetadata commandList path plugin hmeta
      hname hcmds]
    exact if_pos hnil

/-- With the sample registry, which answers false on the empty string, the
conflict of `fooCrowded` lists no empty alias although its first command has
none, and `do-foo`, whose only command has no alias, is accepted next to
`baz`, two of whose commands have aliases. -/
theorem GetAndValidatePlugin_blank_alias_skipped_witness :
    sampleRegistry.HasCommand "" = false ∧ sampleRegistry.HasAlias "" = false ∧
    ((sampleActor [installedBaz]).GetAndValidatePlugin sampleLib (sampleExtractor fooCrowded)
      sampleRegistry "/tmp/foo").1.2 =
      some (Error.actorPluginCommandsConflict fooCrowdedConflict) ∧
    "" ∉ fooCrowdedConflict.CommandAliases ∧
    ((sampleActor [installedBaz]).GetAndValidatePlugin sampleLib (sampleExtractor fooDoFoo)
      sampleRegistry "/tmp/foo").1 = (fooDoFoo, none) :=
  ⟨by decide, by decide, congrArg Prod.snd fooCrowded_result,
    (GetAndValidatePlugin_blank_alias_skipped sampleLib (sampleActor [installedBaz])
      (sampleExtractor fooCrowded) sampleRegistry "/tmp/foo" fooCrowded rfl (by decide)
      (by decide)).1 fooCrowdedConflict (congrArg Prod.snd fooCrowded_result),
    (GetAndValidatePlugin_blank_alias_skipped sampleLib (sampleActor [installedBaz])
      (sampleExtractor fooDoFoo) sampleRegistry "/tmp/foo" fooDoFoo rfl (by decide)
      (by decide)).2 (by decide) (by decide) (by decide)⟩

end pluginaction

namespace shared

/-! ## The message of the conflict error -/

/-- The message template of a conflict error, by which of its lists are empty. -/
theorem PluginCommandsConflictError.Error_iff (e : PluginCommandsConflictError) :
    (e.Error = namesAndAliasesTemplate ↔ e.CommandNames ≠ [] ∧ e.CommandAliases ≠ []) ∧
    (e.Error = namesTemplate ↔ e.CommandNames ≠ [] ∧ e.CommandAliases = []) ∧
    (e.Error = aliasesTemplate ↔ e.CommandNames = [] ∧ e.CommandAliases ≠ []) ∧
    (e.Error = defaultTemplate ↔ e.CommandNames = [] ∧ e.CommandAliases = []) := by
  have h12 : namesAndAliasesTemplate ≠ namesTemplate := by decide
  have h13 : namesAndAliasesTemplate ≠ aliasesTemplate := by decide
  have h14 : namesAndAliasesTemplate ≠ defaultTemplate := by decide
  have h23 : namesTemplate ≠ aliasesTemplate := by decide
  have h24 : namesTemplate ≠ defaultTemplate := by decide
  have h34 : aliasesTemplate ≠ defaultTemplate := by decide
  rcases e with ⟨pluginName, pluginVersion, names, aliases⟩
  cases names with
  | nil =>
    cases aliases with
    | nil =>
      have h : PluginCommandsConflictError.Error ⟨pluginName, pluginVersion, [], []⟩ =
          defaultTemplate := rfl
      rw [h]
      exact ⟨⟨fun h => absurd h.symm h14, fun h => absurd rfl h.1⟩,
        ⟨fun h => absurd h.symm h24, fun h => absurd rfl h.1⟩,
        ⟨fun h => absurd h.symm h34, fun h => absurd rfl h.2⟩,
        ⟨fun _ => ⟨rfl, rfl⟩, fun _ => rfl⟩⟩
    | cons a as =>
      have h : PluginCommandsConflictError.Error ⟨pluginName, pluginVersion, [], a :: as⟩ =
          aliasesTemplate := by
        simp [PluginCommandsConflictError.Error]
      rw [h]
      exact ⟨⟨fun h => absurd h.symm h13, fun h => absurd rfl h.1⟩,
        ⟨fun h => absurd h.symm h23, fun h => absurd rfl h.1⟩,
        ⟨fun _ => ⟨rfl, List.cons_ne_nil a as⟩, fun _ => rfl⟩,
        ⟨fun h => absurd h h34, fun h => absurd h.2 (List.cons_ne_nil a as)⟩⟩
  | cons n ns =>
    cases aliases with
    | nil =>
      have h : PluginCommandsConflictError.Error ⟨pluginName, pluginVersion, n :: ns, []⟩ =
          namesTemplate := by
        simp [PluginCommandsConflictError.Error]
      rw [h]
      exact ⟨⟨fun h => absurd h.symm h12, fun h => absurd rfl h.2⟩,
        ⟨fun _ => ⟨List.cons_ne_nil n ns, rfl⟩, fun _ => rfl⟩,
        ⟨fun h => absurd h h23, fun h => absurd h.1 (List.cons_ne_nil n ns)⟩,
        ⟨fun h => absurd h h24, fun h => absurd h.1 (List.cons_ne_nil n ns)⟩⟩
    | cons a as =>
      have h : PluginCommandsConflictError.Error ⟨pluginName, pluginVersion, n :: ns, a :: as⟩ =
          namesAndAliasesTemplate := by
        simp [PluginCommandsConflictError.Error]
      rw [h]
      exact ⟨⟨fun _ => ⟨List.cons_ne_nil n ns, List.cons_ne_nil a as⟩, fun _ => rfl⟩,
        ⟨fun h => absurd h h12, fun h => absurd h.2 (List.cons_ne_nil a as)⟩,
        ⟨fun h => absurd h h13, fun h => absurd h.1 (List.cons_ne_nil n ns)⟩,
        ⟨fun h => absurd h h14, fun h => absurd h.1 (List.cons_ne_nil n ns)⟩⟩

end shared

namespace pluginaction

/-- A conflict error returned after a successful extraction has an entry in
one of its lists. -/
theorem conflict_has_entry {V : Type} [Inhabited V] (lib : Lib V) (actor : Actor V)
    (pluginMetadata : PluginMetadata V) (commandList : CommandList) (path : String)
    (plugin : Plugin V) (hmeta : pluginMetadata.GetMetadata path = (plugin, none))
    (e : PluginCommandsConflictError)
    (herr : (actor.GetAndValidatePlugin lib pluginMetadata commandList path).1.2 =
      some (Error.actorPluginCommandsConflict e)) :
    e.CommandNames ≠ [] ∨ e.CommandAliases ≠ [] := by
  obtain ⟨hname, hcmds, he⟩ :=
    conflict_eq_conflictOf lib actor pluginMetadata commandList path plugin hmeta e herr
  rw [GetAndValidatePlugin_valid lib actor pluginMetadata commandList path plugin hmeta hname
    hcmds] at herr
  by_cases hnil : collectedNames commandList actor.config.plugins plugin = [] ∧
      collectedAliases commandList actor.config.plugins plugin = []
  · rw [if_pos hnil] at herr
    simp at herr
  · subst he
    by_cases h1 : collectedNames commandList actor.config.plugins plugin = []
    · right
      exact fun hs => hnil ⟨h1, (sortSlice_eq_nil_iff _ _).mp hs⟩
    · left
      exact fun hs => h1 ((sortSlice_eq_nil_iff _ _).mp hs)

/-! ## The message shown for a conflict -/

/-- C19: a conflict error that `GetAndValidatePlugin` builds, once converted
by `HandleError`, never has the default template as its message: the message
is the names-and-aliases template exactly when both lists are non-empty, the
names template exactly when only `CommandNames` is non-empty, and the aliases
template exactly when only `CommandAliases` is non-empty. The default template
is the message of a conflict error exactly when both its lists are empty. -/
theorem conflict_message_never_default {V : Type} [Inhabited V] (lib : Lib V)
    (actor : Actor V) (pluginMetadata : PluginMetadata V) (commandList : CommandList)
    (path : String) (plugin : Plugin V)
    (hmeta : pluginMetadata.GetMetadata path = (plugin, none))
    (e : PluginCommandsConflictError)
    (herr : (actor.GetAndValidatePlugin lib pluginMetadata commandList path).1.2 =
      some (Error.actorPluginCommandsConflict e)) :
    (∃ converted : shared.PluginCommandsConflictError,
      shared.HandleError (actor.GetAndValidatePlugin lib pluginMetadata commandList path).1.2 =
        some (Error.sharedPluginCommandsConflict converted) ∧
      converted.CommandNames = e.CommandNames ∧
      converted.CommandAliases = e.CommandAliases ∧
      converted.Error ≠ shared.defaultTemplate ∧
      (converted.Error = shared.namesAndAliasesTemplate ↔
        converted.CommandNames ≠ [] ∧ converted.CommandAliases ≠ []) ∧
      (converted.Error = shared.namesTemplate ↔
        converted.CommandNames ≠ [] ∧ converted.CommandAliases = []) ∧
      (converted.Error = shared.aliasesTemplate ↔
        converted.CommandNames = [] ∧ converted.CommandAliases ≠ [])) ∧
    ∀ built : shared.PluginCommandsConflictError,
      built.Error = shared.defaultTemplate ↔
        built.CommandNames = [] ∧ built.CommandAliases = [] := by
  have hentry :=
    conflict_has_entry lib actor pluginMetadata commandList path plugin hmeta e herr
  refine ⟨⟨⟨e.PluginName, e.PluginVersion, e.CommandNames, e.CommandAliases⟩, ?_, rfl, rfl, ?_,
    (shared.PluginCommandsConflictError.Error_iff _).1,
    (shared.PluginCommandsConflictError.Error_iff _).2.1,
    (shared.PluginCommandsConflictError.Error_iff _).2.2.1⟩,
    fun built => (shared.PluginCommandsConflictError.Error_iff built).2.2.2⟩
  · rw [herr]
    rfl
  · intro hdefault
    have hboth := (shared.PluginCommandsConflictError.Error_iff _).2.2.2.mp hdefault
    rcases hentry with h | h
    · exact h hboth.1
    · exact h hboth.2

/-- The conflict of `fooCrowded` has names and aliases, and its message is the
names-and-aliases template. -/
theorem conflict_message_never_default_witness :
    ((sampleActor [installedBaz]).GetAndValidatePlugin sampleLib (sampleExtractor fooCrowded)
      sampleRegistry "/tmp/foo").1.2 =
      some (Error.actorPluginCommandsConflict fooCrowdedConflict) ∧
    ∃ converted : shared.PluginCommandsConflictError,
      shared.HandleError ((sampleActor [installedBaz]).GetAndValidatePlugin sampleLib
        (sampleExtractor fooCrowded) sampleRegistry "/tmp/foo").1.2 =
        some (Error.sharedPluginCommandsConflict converted) ∧
      converted.CommandNames = ["Apps", "list", "push", "push"] ∧
      converted.CommandAliases = ["ls", "p", "x"] ∧
      converted.Error ≠ shared.defaultTemplate :=
  ⟨congrArg Prod.snd fooCrowded_result,
    (conflict_message_never_default sampleLib (sampleActor [installedBaz])
      (sampleExtractor fooCrowded) sampleRegistry "/tmp/foo" fooCrowded rfl fooCrowdedConflict
      (congrArg Prod.snd fooCrowded_result)).1.imp
      fun _ h => ⟨h.1, h.2.1, h.2.2.1, h.2.2.2.1⟩⟩

end pluginaction

namespace pluginaction

/-! ## Origin and size of the conflict report -/

theorem length_nameHits_le (c : PluginCommand) (cmds : List PluginCommand) :
    (cmds.flatMap (nameHits c)).length ≤ cmds.length := by
  induction cmds with
  | nil => simp
  | cons ic rest ih =>
    rw [List.flatMap_cons, List.length_append, List.length_cons]
    have h1 : (nameHits c ic).length ≤ 1 := by
      unfold nameHits
      split <;> simp
    omega

theorem length_aliasHits_le (c : PluginCommand) (cmds : List PluginCommand) :
    (cmds.flatMap (aliasHits c)).length ≤ cmds.length := by
  induction cmds with
  | nil => simp
  | cons ic rest ih =>
    rw [List.flatMap_cons, List.length_append, List.length_cons]
    have h1 : (aliasHits c ic).length ≤ 1 := by
      unfold aliasHits
      split <;> simp
    omega

theorem length_installedNameHits_le {V : Type} (installedPlugins : List (Plugin V))
    (pluginName : String) (c : PluginCommand) :
    (installedNameHits installedPlugins pluginName c).length ≤
      otherCommandsCount installedPlugins pluginName := by
  unfold installedNameHits otherCommandsCount
  induction installedPlugins with
  | nil => simp
  | cons p rest ih =>
    rw [List.flatMap_cons, List.length_append, List.filter_cons]
    by_cases h : pluginName = p.Name
    · have hf : ¬ (decide (p.Name ≠ pluginName) = true) := by simp [h]
      rw [if_pos h, if_neg hf]
      simpa using ih
    · have hf : decide (p.Name ≠ pluginName) = true := by
        simp only [ne_eq, decide_eq_true_eq]
        exact fun h2 => h h2.symm
      rw [if_neg h, if_pos hf, List.map_cons, List.sum_cons]
      have := length_nameHits_le c p.Commands
      omega

theorem length_installedAliasHits_le {V : Type} (installedPlugins : List (Plugin V))
    (pluginName : String) (c : PluginCommand) :
    (installedAliasHits installedPlugins pluginName c).length ≤
      otherCommandsCount installedPlugins pluginName := by
  unfold installedAliasHits otherCommandsCount
  induction installedPlugins with
  | nil => simp
  | cons p rest ih =>
    rw [List.flatMap_cons, List.length_append, List.filter_cons]
    by_cases h : pluginName = p.Name
    · have hf : ¬ (decide (p.Name ≠ pluginName) = true) := by simp [h]
      rw [if_pos h, if_neg hf]
      simpa using ih
    · have hf : decide (p.Name ≠ pluginName) = true := by
        simp only [ne_eq, decide_eq_true_eq]
        exact fun h2 => h h2.symm
      rw [if_neg h, if_pos hf, List.map_cons, List.sum_cons]
      have := length_aliasHits_le c p.Commands
      omega

theorem length_commandNameHits_flatMap_le {V : Type} (commandList : CommandList)
    (installedPlugins : List (Plugin V)) (pluginName : String) (cmds : List PluginCommand) :
    (cmds.flatMap (commandNameHits commandList installedPlugins pluginName)).length ≤
      cmds.length * (1 + otherCommandsCount installedPlugins pluginName) := by
  induction cmds with
  | nil => simp
  | cons c rest ih =>
    rw [List.flatMap_cons, List.length_append, List.length_cons, Nat.succ_mul]
    have h1 : (commandNameHits commandList installedPlugins pluginName c).length ≤
        1 + otherCommandsCount installedPlugins pluginName := by
      unfold commandNameHits
      rw [List.length_append]
      have := length_installedNameHits_le installedPlugins pluginName c
      split <;> simp <;> omega
    omega

theorem length_commandAliasHits_flatMap_le {V : Type} (commandList : CommandList)
    (installedPlugins : List (Plugin V)) (pluginName : String) (cmds : List PluginCommand) :
    (cmds.flatMap (commandAliasHits commandList installedPlugins pluginName)).length ≤
      cmds.length * (1 + otherCommandsCount installedPlugins pluginName) := by
  induction cmds with
  | nil => simp
  | cons c rest ih =>
    rw [List.flatMap_cons, List.length_append, List.length_cons, Nat.succ_mul]
    have h1 : (commandAliasHits commandList installedPlugins pluginName c).length ≤
        1 + otherCommandsCount installedPlugins pluginName := by
      unfold commandAliasHits
      rw [List.length_append]
      have := length_installedAliasHits_le installedPlugins pluginName c
      split <;> simp <;> omega
    omega

/-- C20: a conflict report names only the candidate's own tokens. When
validation of the candidate the extractor returned ends in a conflict, every
entry of `CommandNames` is the `Name` of a command of the candidate, every
entry of `CommandAliases` is the `Alias` of a command of the candidate, and
each list has at most (number of candidate commands) x (1 + total number of
commands of installed plugins with a different name) entries. -/
theorem GetAndValidatePlugin_conflict_own_tokens {V : Type} [Inhabited V] (lib : Lib V)
    (actor : Actor V) (pluginMetadata : PluginMetadata V) (commandList : CommandList)
    (path : String) (plugin : Plugin V)
    (hmeta : pluginMetadata.GetMetadata path = (plugin, none))
    (e : PluginCommandsConflictError)
    (herr : (actor.GetAndValidatePlugin lib pluginMetadata commandList path).1.2 =
      some (Error.actorPluginCommandsConflict e)) :
    (∀ name ∈ e.CommandNames, ∃ c ∈ plugin.Commands, c.Name = name) ∧
    (∀ token ∈ e.CommandAliases, ∃ c ∈ plugin.Commands, c.Alias = token) ∧
    e.CommandNames.length ≤
      plugin.Commands.length * (1 + otherCommandsCount actor.config.plugins plugin.Name) ∧
    e.CommandAliases.length ≤
      plugin.Commands.length * (1 + otherCommandsCount actor.config.plugins plugin.Name) := by
  obtain ⟨-, -, rfl⟩ :=
    conflict_eq_conflictOf lib actor pluginMetadata commandList path plugin hmeta e herr
  refine ⟨?_, ?_, ?_, ?_⟩
  · intro name hname
    obtain ⟨c, hc, hx, -⟩ :=
      (mem_collectedNames _ _ _ _).mp ((mem_conflictOf_names _ _ _ _ _).mp hname)
    exact ⟨c, hc, hx.symm⟩
  · intro token htoken
    obtain ⟨c, hc, hx, -⟩ :=
      (mem_collectedAliases _ _ _ _).mp ((mem_conflictOf_aliases _ _ _ _ _).mp htoken)
    exact ⟨c, hc, hx.symm⟩
  · have hlen := (sortSlice_perm (lessFold lib)
      (collectedNames commandList actor.config.plugins plugin)).length_eq
    have hle := length_commandNameHits_flatMap_le commandList actor.config.plugins plugin.Name
      plugin.Commands
    show (sortSlice (lessFold lib)
      (collectedNames commandList actor.config.plugins plugin)).length ≤ _
    rw [hlen]
    exact hle
  · have hlen := (sortSlice_perm (lessFold lib)
      (collectedAliases commandList actor.config.plugins plugin)).length_eq
    have hle := length_commandAliasHits_flatMap_le commandList actor.config.plugins plugin.Name
      plugin.Commands
    show (sortSlice (lessFold lib)
      (collectedAliases commandList actor.config.plugins plugin)).length ≤ _
    rw [hlen]
    exact hle

/-- The four names in the conflict of `fooCrowded` are names of its four
commands, and four is within the bound 4 x (1 + 2). -/
theorem GetAndValidatePlugin_conflict_own_tokens_witness :
    ((sampleActor [installedBaz]).GetAndValidatePlugin sampleLib (sampleExtractor fooCrowded)
      sampleRegistry "/tmp/foo").1.2 =
      some (Error.actorPluginCommandsConflict fooCrowdedConflict) ∧
    otherCommandsCount [installedBaz] "foo" = 2 ∧
    (∀ name ∈ ["Apps", "list", "push", "push"], ∃ c ∈ fooCrowded.Commands, c.Name = name) ∧
    [("Apps" : String), "list", "push", "push"].length ≤ 4 * (1 + 2) :=
  ⟨congrArg Prod.snd fooCrowded_result, by decide,
    (GetAndValidatePlugin_conflict_own_tokens sampleLib (sampleActor [installedBaz])
      (sampleExtractor fooCrowded) sampleRegistry "/tmp/foo" fooCrowded rfl fooCrowdedConflict
      (congrArg Prod.snd fooCrowded_result)).1,
    (GetAndValidatePlugin_conflict_own_tokens sampleLib (sampleActor [installedBaz])
      (sampleExtractor fooCrowded) sampleRegistry "/tmp/foo" fooCrowded rfl fooCrowdedConflict
      (congrArg Prod.snd fooCrowded_result)).2.2.1⟩

end pluginaction

namespace pluginaction

/-! ## Final install -/

theorem mem_upsertPlugin {V : Type} (plugin : Plugin V) (installed : List (Plugin V)) :
    plugin ∈ upsertPlugin plugin installed := by
  induction installed with
  | nil => simp [upsertPlugin]
  | cons p rest ih =>
    unfold upsertPlugin
    split
    · exact List.mem_cons_self _ _
    · exact List.mem_cons_of_mem _ ih

theorem CopyPathToPath_keeps {V : Type} (world w1 : World V) (fromPath toPath : String)
    (result : Option Error) (h : world.CopyPathToPath fromPath toPath = (result, w1)) :
    w1.fault = world.fault ∧ w1.pluginConfig = world.pluginConfig := by
  unfold World.CopyPathToPath at h
  split at h
  · simp only [Prod.mk.injEq] at h
    rw [← h.2]
    exact ⟨rfl, rfl⟩
  · split at h
    · simp only [Prod.mk.injEq] at h
      rw [← h.2]
      exact ⟨rfl, rfl⟩
    · simp only [Prod.mk.injEq] at h
      rw [← h.2]
      exact ⟨rfl, rfl⟩

theorem Chmod_keeps {V : Type} (world w1 : World V) (name : String) (mode : Nat)
    (result : Option Error) (h : world.Chmod name mode = (result, w1)) :
    w1.fault = world.fault ∧ w1.pluginConfig = world.pluginConfig := by
  unfold World.Chmod at h
  split at h
  · simp only [Prod.mk.injEq] at h
    rw [← h.2]
    exact ⟨rfl, rfl⟩
  · split at h
    · simp only [Prod.mk.injEq] at h
      rw [← h.2]
      exact ⟨rfl, rfl⟩
    · simp only [Prod.mk.injEq] at h
      rw [← h.2]
      exact ⟨rfl, rfl⟩

theorem InstallPluginFromPath_copy_failed {V : Type} (actor : Actor V) (world w1 : World V)
    (path : String) (plugin : Plugin V) (err : Error)
    (hcopy : world.CopyPathToPath path (filepathJoin actor.config.pluginHome plugin.Name) =
      (some err, w1)) :
    actor.InstallPluginFromPath world path plugin =
      (some err, { config := actor.config.PluginHome.2 }, w1) := by
  unfold Actor.InstallPluginFromPath
  simp only [Config.PluginHome, hcopy]

theorem InstallPluginFromPath_chmod_failed {V : Type} (actor : Actor V) (world w1 w2 : World V)
    (path : String) (plugin : Plugin V) (err : Error)
    (hcopy : world.CopyPathToPath path (filepathJoin actor.config.pluginHome plugin.Name) =
      (none, w1))
    (hchmod : w1.Chmod (filepathJoin actor.config.pluginHome plugin.Name) 0o755 =
      (some err, w2)) :
    actor.InstallPluginFromPath world path plugin =
      (some err, { config := actor.config.PluginHome.2 }, w2) := by
  unfold Actor.InstallPluginFromPath
  simp only [Config.PluginHome, hcopy, hchmod]

theorem InstallPluginFromPath_written {V : Type} (actor : Actor V) (world w1 w2 : World V)
    (path : String) (plugin located : Plugin V)
    (out : Option Error × Config V × World V)
    (hcopy : world.CopyPathToPath path (filepathJoin actor.config.pluginHome plugin.Name) =
      (none, w1))
    (hchmod : w1.Chmod (filepathJoin actor.config.pluginHome plugin.Name) 0o755 = (none, w2))
    (hlocated : located =
      { plugin with Location := filepathJoin actor.config.pluginHome plugin.Name })
    (hout : (actor.config.PluginHome.2.AddPlugin located).WritePluginConfig w2 = out) :
    actor.InstallPluginFromPath world path plugin = (out.1, { config := out.2.1 }, out.2.2) := by
  subst hlocated hout
  unfold Actor.InstallPluginFromPath
  simp only [Config.PluginHome, hcopy, hchmod]
  unfold Config.WritePluginConfig
  cases w2.fault OsCall.WritePluginConfig <;> rfl

/-- C11: when the copy, the chmod and `WritePluginConfig` all succeed,
`InstallPluginFromPath` returns no error, and `Plugins()` queried afterwards
contains an entry with the `Name`, the `Version` and the `Commands` of the
plugin passed in and with `Location` the plugin home joined with that `Name`;
the persisted registry holds the same plugins. -/
theorem InstallPluginFromPath_registers {V : Type} (actor : Actor V) (world w1 w2 : World V)
    (path : String) (plugin : Plugin V)
    (hcopy : world.CopyPathToPath path (filepathJoin actor.config.pluginHome plugin.Name) =
      (none, w1))
    (hchmod : w1.Chmod (filepathJoin actor.config.pluginHome plugin.Name) 0o755 = (none, w2))
    (hwrite : w2.fault OsCall.WritePluginConfig = none) :
    (actor.InstallPluginFromPath world path plugin).1 = none ∧
    (∃ entry ∈ (actor.InstallPluginFromPath world path plugin).2.1.config.Plugins.1,
      entry.Name = plugin.Name ∧
      entry.Location = filepathJoin actor.config.pluginHome plugin.Name ∧
      entry.Version = plugin.Version ∧ entry.Commands = plugin.Commands) ∧
    (actor.InstallPluginFromPath world path plugin).2.2.pluginConfig =
      (actor.InstallPluginFromPath world path plugin).2.1.config.Plugins.1 := by
  rw [InstallPluginFromPath_written actor world w1 w2 path plugin _ _ hcopy hchmod rfl rfl]
  unfold Config.WritePluginConfig
  simp only [hwrite]
  exact ⟨trivial, ⟨_, mem_upsertPlugin _ _, rfl, rfl, rfl, rfl⟩, rfl⟩

/-- Installing `do-foo` from `/tmp/foo` into an empty store, on a system that
refuses nothing, registers it with the location `/home/plugins/foo`. -/
theorem InstallPluginFromPath_registers_witness :
    ((sampleActor []).InstallPluginFromPath (sampleWorld noFault) "/tmp/foo" fooDoFoo).1 = none ∧
    ((sampleActor []).InstallPluginFromPath (sampleWorld noFault) "/tmp/foo"
      fooDoFoo).2.1.config.Plugins.1 =
      [{ fooDoFoo with Location := "/home/plugins/foo" }] ∧
    ∃ entry ∈ ((sampleActor []).InstallPluginFromPath (sampleWorld noFault) "/tmp/foo"
        fooDoFoo).2.1.config.Plugins.1,
      entry.Name = "foo" ∧ entry.Location = "/home/plugins/foo" ∧
      entry.Version = 1 ∧ entry.Commands = fooDoFoo.Commands :=
  ⟨by decide, by decide,
    (InstallPluginFromPath_registers (sampleActor []) (sampleWorld noFault)
      ((sampleWorld noFault).CopyPathToPath "/tmp/foo" "/home/plugins/foo").2
      ((((sampleWorld noFault).CopyPathToPath "/tmp/foo" "/home/plugins/foo").2).Chmod
        "/home/plugins/foo" 0o755).2
      "/tmp/foo" fooDoFoo rfl rfl rfl).2.1⟩

/-- C12 as stated fails: installing `do-foo` into an empty store on a system
that lets the copy and the chmod succeed and refuses only the write of the
plugin config returns that error, and yet `Plugins()` after the call holds the
plugin, with its location, while before the call it held nothing. -/
theorem InstallPluginFromPath_write_failure_not_rolled_back :
    ((sampleWorld writeFault).CopyPathToPath "/tmp/foo" "/home/plugins/foo").1 = none ∧
    ((((sampleWorld writeFault).CopyPathToPath "/tmp/foo" "/home/plugins/foo").2).Chmod
      "/home/plugins/foo" 0o755).1 = none ∧
    ((sampleActor []).InstallPluginFromPath (sampleWorld writeFault) "/tmp/foo" fooDoFoo).1 =
      some (Error.other "no space left on device") ∧
    (sampleActor []).config.Plugins.1 = [] ∧
    ((sampleActor []).InstallPluginFromPath (sampleWorld writeFault) "/tmp/foo"
      fooDoFoo).2.1.config.Plugins.1 =
      [{ fooDoFoo with Location := "/home/plugins/foo" }] ∧
    ((sampleActor []).InstallPluginFromPath (sampleWorld writeFault) "/tmp/foo"
      fooDoFoo).2.1.config.Plugins.1 ≠ (sampleActor []).config.Plugins.1 := by
  decide

/-- C12, amended: when the copy and the chmod succeed and `WritePluginConfig`
fails, `InstallPluginFromPath` returns that error and the persisted plugin
config is what it was before the call; `AddPlugin` has run by then, so
`Plugins()` after the call is `Plugins()` before the call with the plugin,
its `Location` set, upserted by name, and contains that plugin. -/
theorem InstallPluginFromPath_write_failure {V : Type} (actor : Actor V)
    (world w1 w2 : World V) (path : String) (plugin located : Plugin V) (err : Error)
    (hcopy : world.CopyPathToPath path (filepathJoin actor.config.pluginHome plugin.Name) =
      (none, w1))
    (hchmod : w1.Chmod (filepathJoin actor.config.pluginHome plugin.Name) 0o755 = (none, w2))
    (hwrite : w2.fault OsCall.WritePluginConfig = some err)
    (hlocated : located =
      { plugin with Location := filepathJoin actor.config.pluginHome plugin.Name }) :
    (actor.InstallPluginFromPath world path plugin).1 = some err ∧
    (actor.InstallPluginFromPath world path plugin).2.2.pluginConfig = world.pluginConfig ∧
    (actor.InstallPluginFromPath world path plugin).2.1.config.Plugins.1 =
      upsertPlugin located actor.config.Plugins.1 ∧
    located ∈ (actor.InstallPluginFromPath world path plugin).2.1.config.Plugins.1 ∧
    (actor.InstallPluginFromPath world path plugin).2.1.config.calls =
      actor.config.calls ++
        [ConfigCall.PluginHome, ConfigCall.AddPlugin located, ConfigCall.WritePluginConfig] := by
  have hk1 := (CopyPathToPath_keeps world w1 _ _ _ hcopy).2
  have hk2 := (Chmod_keeps w1 w2 _ _ _ hchmod).2
  rw [InstallPluginFromPath_written actor world w1 w2 path plugin located _ hcopy hchmod
    hlocated rfl]
  unfold Config.WritePluginConfig
  simp only [hwrite]
  refine ⟨trivial, by rw [hk2, hk1], rfl, mem_upsertPlugin _ _, ?_⟩
  simp [Config.AddPlugin, Config.PluginHome]

/-- On the system that refuses only the write of the plugin config, the error
comes back, the store holds `do-foo` with its location, and the persisted
registry is still empty. -/
theorem InstallPluginFromPath_write_failure_witness :
    ((sampleActor []).InstallPluginFromPath (sampleWorld writeFault) "/tmp/foo" fooDoFoo).1 =
      some (Error.other "no space left on device") ∧
    ((sampleActor []).InstallPluginFromPath (sampleWorld writeFault) "/tmp/foo"
      fooDoFoo).2.2.pluginConfig = [] ∧
    ((sampleActor []).InstallPluginFromPath (sampleWorld writeFault) "/tmp/foo"
      fooDoFoo).2.1.config.Plugins.1 =
      upsertPlugin { fooDoFoo with Location := "/home/plugins/foo" } [] :=
  ⟨(InstallPluginFromPath_write_failure (sampleActor []) (sampleWorld writeFault)
      ((sampleWorld writeFault).CopyPathToPath "/tmp/foo" "/home/plugins/foo").2
      ((((sampleWorld writeFault).CopyPathToPath "/tmp/foo" "/home/plugins/foo").2).Chmod
        "/home/plugins/foo" 0o755).2
      "/tmp/foo" fooDoFoo { fooDoFoo with Location := "/home/plugins/foo" }
      (Error.other "no space left on device") rfl rfl rfl rfl).1,
    (InstallPluginFromPath_write_failure (sampleActor []) (sampleWorld writeFault)
      ((sampleWorld writeFault).CopyPathToPath "/tmp/foo" "/home/plugins/foo").2
      ((((sampleWorld writeFault).CopyPathToPath "/tmp/foo" "/home/plugins/foo").2).Chmod
        "/home/plugins/foo" 0o755).2
      "/tmp/foo" fooDoFoo { fooDoFoo with Location := "/home/plugins/foo" }
      (Error.other "no space left on device") rfl rfl rfl rfl).2.1,
    (InstallPluginFromPath_write_failure (sampleActor []) (sampleWorld writeFault)
      ((sampleWorld writeFault).CopyPathToPath "/tmp/foo" "/home/plugins/foo").2
      ((((sampleWorld writeFault).CopyPathToPath "/tmp/foo" "/home/plugins/foo").2).Chmod
        "/home/plugins/foo" 0o755).2
      "/tmp/foo" fooDoFoo { fooDoFoo with Location := "/home/plugins/foo" }
      (Error.other "no space left on device") rfl rfl rfl rfl).2.2.1⟩

/-- C13: if the file copy fails, or the copy succeeds and the chmod fails,
`InstallPluginFromPath` returns that error as it is and stops there: the
installed plugins of the store and the persisted registry are unchanged, and
the only call made on the store is `PluginHome`, so that neither `AddPlugin`
nor `WritePluginConfig` is invoked. -/
theorem InstallPluginFromPath_io_failure {V : Type} (actor : Actor V) (world : World V)
    (path : String) (plugin : Plugin V) (err : Error) :
    (∀ w1 : World V,
      world.CopyPathToPath path (filepathJoin actor.config.pluginHome plugin.Name) =
        (some err, w1) →
      (actor.InstallPluginFromPath world path plugin).1 = some err ∧
      (actor.InstallPluginFromPath world path plugin).2.1.config.plugins =
        actor.config.plugins ∧
      (actor.InstallPluginFromPath world path plugin).2.1.config.calls =
        actor.config.calls ++ [ConfigCall.PluginHome] ∧
      (actor.InstallPluginFromPath world path plugin).2.2.pluginConfig = world.pluginConfig) ∧
    (∀ w1 w2 : World V,
      world.CopyPathToPath path (filepathJoin actor.config.pluginHome plugin.Name) =
        (none, w1) →
      w1.Chmod (filepathJoin actor.config.pluginHome plugin.Name) 0o755 = (some err, w2) →
      (actor.InstallPluginFromPath world path plugin).1 = some err ∧
      (actor.InstallPluginFromPath world path plugin).2.1.config.plugins =
        actor.config.plugins ∧
      (actor.InstallPluginFromPath world path plugin).2.1.config.calls =
        actor.config.calls ++ [ConfigCall.PluginHome] ∧
      (actor.InstallPluginFromPath world path plugin).2.2.pluginConfig = world.pluginConfig) := by
  constructor
  · intro w1 hcopy
    rw [InstallPluginFromPath_copy_failed actor world w1 path plugin err hcopy]
    exact ⟨rfl, rfl, rfl, (CopyPathToPath_keeps world w1 _ _ _ hcopy).2⟩
  · intro w1 w2 hcopy hchmod
    rw [InstallPluginFromPath_chmod_failed actor world w1 w2 path plugin err hcopy hchmod]
    refine ⟨rfl, rfl, rfl, ?_⟩
    rw [(Chmod_keeps w1 w2 _ _ _ hchmod).2, (CopyPathToPath_keeps world w1 _ _ _ hcopy).2]

/-- Installing from a path where there is no file fails at the copy, and
installing on a system that refuses the chmod fails at the chmod; either way
the store next to `baz` still holds `baz` alone. -/
theorem InstallPluginFromPath_io_failure_witness :
    (((sampleActor [installedBaz]).InstallPluginFromPath (sampleWorld noFault) "/tmp/missing"
        fooDoFoo).1 = some (Error.other "no such file or directory") ∧
      ((sampleActor [installedBaz]).InstallPluginFromPath (sampleWorld noFault) "/tmp/missing"
        fooDoFoo).2.1.config.plugins = [installedBaz]) ∧
    (((sampleActor [installedBaz]).InstallPluginFromPath (sampleWorld chmodFault) "/tmp/foo"
        fooDoFoo).1 = some (Error.other "operation not permitted") ∧
      ((sampleActor [installedBaz]).InstallPluginFromPath (sampleWorld chmodFault) "/tmp/foo"
        fooDoFoo).2.1.config.plugins = [installedBaz]) :=
  ⟨⟨((InstallPluginFromPath_io_failure (sampleActor [installedBaz]) (sampleWorld noFault)
        "/tmp/missing" fooDoFoo (Error.other "no such file or directory")).1
        (sampleWorld noFault) rfl).1,
      ((InstallPluginFromPath_io_failure (sampleActor [installedBaz]) (sampleWorld noFault)
        "/tmp/missing" fooDoFoo (Error.other "no such file or directory")).1
        (sampleWorld noFault) rfl).2.1⟩,
    ⟨((InstallPluginFromPath_io_failure (sampleActor [installedBaz]) (sampleWorld chmodFault)
        "/tmp/foo" fooDoFoo (Error.other "operation not permitted")).2
        ((sampleWorld chmodFault).CopyPathToPath "/tmp/foo" "/home/plugins/foo").2
        ((sampleWorld chmodFault).CopyPathToPath "/tmp/foo" "/home/plugins/foo").2 rfl rfl).1,
      ((InstallPluginFromPath_io_failure (sampleActor [installedBaz]) (sampleWorld chmodFault)
        "/tmp/foo" fooDoFoo (Error.other "operation not permitted")).2
        ((sampleWorld chmodFault).CopyPathToPath "/tmp/foo" "/home/plugins/foo").2
        ((sampleWorld chmodFault).CopyPathToPath "/tmp/foo" "/home/plugins/foo").2 rfl rfl).2.1⟩⟩

end pluginaction

namespace pluginaction

/-! ## Staging -/

theorem CreateExecutableCopy_mkdir_failed {V : Type} (actor : Actor V) (world w1 : World V)
    (path : String) (err : Error)
    (hmkdir : world.MkdirAll (filepathJoin actor.config.pluginHome "temp") 0o700 =
      (some err, w1)) :
    actor.CreateExecutableCopy world path =
      (("", some err), { config := actor.config.PluginHome.2 }, w1) := by
  unfold Actor.CreateExecutableCopy
  simp only [Config.PluginHome, hmkdir]

theorem CreateExecutableCopy_tempfile_failed {V : Type} (actor : Actor V)
    (world w1 w2 : World V) (path tempFile : String) (err : Error)
    (hmkdir : world.MkdirAll (filepathJoin actor.config.pluginHome "temp") 0o700 = (none, w1))
    (htemp : w1.TempFile (filepathJoin actor.config.pluginHome "temp") "" =
      ((tempFile, some err), w2)) :
    actor.CreateExecutableCopy world path =
      (("", some err), { config := actor.config.PluginHome.2 }, w2) := by
  unfold Actor.CreateExecutableCopy
  simp only [Config.PluginHome, hmkdir, htemp]

theorem CreateExecutableCopy_close_failed {V : Type} (actor : Actor V)
    (world w1 w2 w3 : World V) (path tempFile : String) (err : Error)
    (hmkdir : world.MkdirAll (filepathJoin actor.config.pluginHome "temp") 0o700 = (none, w1))
    (htemp : w1.TempFile (filepathJoin actor.config.pluginHome "temp") "" =
      ((tempFile, none), w2))
    (hclose : w2.Close tempFile = (some err, w3)) :
    actor.CreateExecutableCopy world path =
      (("", some err), { config := actor.config.PluginHome.2 }, w3) := by
  unfold Actor.CreateExecutableCopy
  simp only [Config.PluginHome, hmkdir, htemp, hclose]

theorem CreateExecutableCopy_copy_failed {V : Type} (actor : Actor V)
    (world w1 w2 w3 w4 : World V) (path tempFile : String) (err : Error)
    (hmkdir : world.MkdirAll (filepathJoin actor.config.pluginHome "temp") 0o700 = (none, w1))
    (htemp : w1.TempFile (filepathJoin actor.config.pluginHome "temp") "" =
      ((tempFile, none), w2))
    (hclose : w2.Close tempFile = (none, w3))
    (hcopy : w3.CopyPathToPath path tempFile = (some err, w4)) :
    actor.CreateExecutableCopy world path =
      (("", some err), { config := actor.config.PluginHome.2 }, w4) := by
  unfold Actor.CreateExecutableCopy
  simp only [Config.PluginHome, hmkdir, htemp, hclose, hcopy]

theorem CreateExecutableCopy_chmod_failed {V : Type} (actor : Actor V)
    (world w1 w2 w3 w4 w5 : World V) (path tempFile : String) (err : Error)
    (hmkdir : world.MkdirAll (filepathJoin actor.config.pluginHome "temp") 0o700 = (none, w1))
    (htemp : w1.TempFile (filepathJoin actor.config.pluginHome "temp") "" =
      ((tempFile, none), w2))
    (hclose : w2.Close tempFile = (none, w3))
    (hcopy : w3.CopyPathToPath path tempFile = (none, w4))
    (hchmod : w4.Chmod tempFile 0o700 = (some err, w5)) :
    actor.CreateExecutableCopy world path =
      (("", some err), { config := actor.config.PluginHome.2 }, w5) := by
  unfold Actor.CreateExecutableCopy
  simp only [Config.PluginHome, hmkdir, htemp, hclose, hcopy, hchmod]

theorem CreateExecutableCopy_staged {V : Type} (actor : Actor V)
    (world w1 w2 w3 w4 w5 : World V) (path tempFile : String)
    (hmkdir : world.MkdirAll (filepathJoin actor.config.pluginHome "temp") 0o700 = (none, w1))
    (htemp : w1.TempFile (filepathJoin actor.config.pluginHome "temp") "" =
      ((tempFile, none), w2))
    (hclose : w2.Close tempFile = (none, w3))
    (hcopy : w3.CopyPathToPath path tempFile = (none, w4))
    (hchmod : w4.Chmod tempFile 0o700 = (none, w5)) :
    actor.CreateExecutableCopy world path =
      ((tempFile, none), { config := actor.config.PluginHome.2 }, w5) := by
  unfold Actor.CreateExecutableCopy
  simp only [Config.PluginHome, hmkdir, htemp, hclose, hcopy, hchmod]

/-- Whatever the outcome, `CreateExecutableCopy` leaves in the store the
installed plugins it found and makes the call `PluginHome` only. -/
theorem CreateExecutableCopy_config {V : Type} (actor : Actor V) (world : World V)
    (path : String) :
    (actor.CreateExecutableCopy world path).2.1 = { config := actor.config.PluginHome.2 } := by
  rcases hmkdir : world.MkdirAll (filepathJoin actor.config.pluginHome "temp") 0o700 with
    ⟨_ | e1, w1⟩
  · rcases htemp : w1.TempFile (filepathJoin actor.config.pluginHome "temp") "" with
      ⟨⟨tempFile, _ | e2⟩, w2⟩
    · rcases hclose : w2.Close tempFile with ⟨_ | e3, w3⟩
      · rcases hcopy : w3.CopyPathToPath path tempFile with ⟨_ | e4, w4⟩
        · rcases hchmod : w4.Chmod tempFile 0o700 with ⟨_ | e5, w5⟩
          · rw [CreateExecutableCopy_staged actor world w1 w2 w3 w4 w5 path tempFile hmkdir
              htemp hclose hcopy hchmod]
          · rw [CreateExecutableCopy_chmod_failed actor world w1 w2 w3 w4 w5 path tempFile e5
              hmkdir htemp hclose hcopy hchmod]
        · rw [CreateExecutableCopy_copy_failed actor world w1 w2 w3 w4 path tempFile e4 hmkdir
            htemp hclose hcopy]
      · rw [CreateExecutableCopy_close_failed actor world w1 w2 w3 path tempFile e3 hmkdir
          htemp hclose]
    · rw [CreateExecutableCopy_tempfile_failed actor world w1 w2 path tempFile e2 hmkdir htemp]
  · rw [CreateExecutableCopy_mkdir_failed actor world w1 path e1 hmkdir]

theorem CreateExecutableCopy_no_fault {V : Type} (actor : Actor V) (world : World V)
    (path : String) (src : File) (hsrc : world.files path = some src)
    (hfault : ∀ call, world.fault call = none)
    (hfree : world.files
      (filepathJoin (filepathJoin actor.config.pluginHome "temp") ("" ++ world.tempSuffix)) =
        none) :
    (actor.CreateExecutableCopy world path).1 =
      (filepathJoin (filepathJoin actor.config.pluginHome "temp") ("" ++ world.tempSuffix),
        none) ∧
    (actor.CreateExecutableCopy world path).2.2.files
      (filepathJoin (filepathJoin actor.config.pluginHome "temp") ("" ++ world.tempSuffix)) =
      some { content := src.content, mode := 0o700 } ∧
    (actor.CreateExecutableCopy world path).2.2.files path = some src := by
  have hne : path ≠
      filepathJoin (filepathJoin actor.config.pluginHome "temp") ("" ++ world.tempSuffix) := by
    intro h
    rw [← h, hsrc] at hfree
    exact Option.noConfusion hfree
  unfold Actor.CreateExecutableCopy World.MkdirAll World.TempFile World.Close
    World.CopyPathToPath World.Chmod
  simp only [Config.PluginHome, hfault, hfree, hsrc, if_neg hne, if_true, and_self]

theorem TempFile_created {V : Type} (world w1 : World V) (dir pattern tempFile : String)
    (h : world.TempFile dir pattern = ((tempFile, none), w1)) :
    tempFile = filepathJoin dir (pattern ++ world.tempSuffix) ∧
      ∀ p, p ≠ tempFile → w1.files p = world.files p := by
  unfold World.TempFile at h
  split at h
  · simp at h
  · split at h
    · simp at h
    · simp only [Prod.mk.injEq, and_true] at h
      obtain ⟨hname, hworld⟩ := h
      refine ⟨hname.symm, ?_⟩
      intro p hp
      rw [← hworld]
      exact if_neg (by rw [hname]; exact hp)

theorem CopyPathToPath_source {V : Type} (world w1 : World V) (fromPath toPath : String)
    (h : world.CopyPathToPath fromPath toPath = (none, w1)) :
    world.files fromPath ≠ none := by
  unfold World.CopyPathToPath at h
  split at h
  · simp at h
  · split at h
    · simp at h
    · rename_i hsrc
      rw [hsrc]
      exact Option.noConfusion

theorem CreateExecutableCopy_missing_source {V : Type} (actor : Actor V) (world : World V)
    (path : String) (hmissing : world.files path = none)
    (hother : path ≠
      filepathJoin (filepathJoin actor.config.pluginHome "temp") ("" ++ world.tempSuffix)) :
    ∃ err, (actor.CreateExecutableCopy world path).1 = ("", some err) := by
  rcases hmkdir : world.MkdirAll (filepathJoin actor.config.pluginHome "temp") 0o700 with
    ⟨_ | e1, w1⟩
  · rcases htemp : w1.TempFile (filepathJoin actor.config.pluginHome "temp") "" with
      ⟨⟨tempFile, _ | e2⟩, w2⟩
    · rcases hclose : w2.Close tempFile with ⟨_ | e3, w3⟩
      · rcases hcopy : w3.CopyPathToPath path tempFile with ⟨_ | e4, w4⟩
        · exfalso
          have hw1 : w1 = world := by
            unfold World.MkdirAll at hmkdir
            exact (Prod.mk.inj hmkdir).2.symm
          have hw3 : w3 = w2 := by
            unfold World.Close at hclose
            exact (Prod.mk.inj hclose).2.symm
          subst hw1 hw3
          obtain ⟨hname, hfiles⟩ := TempFile_created _ _ _ _ _ htemp
          have hkeep := hfiles path (by rw [hname]; exact hother)
          exact CopyPathToPath_source _ _ _ _ hcopy (by rw [hkeep, hmissing])
        · exact ⟨e4, by rw [CreateExecutableCopy_copy_failed actor world w1 w2 w3 w4 path
            tempFile e4 hmkdir htemp hclose hcopy]⟩
      · exact ⟨e3, by rw [CreateExecutableCopy_close_failed actor world w1 w2 w3 path tempFile
          e3 hmkdir htemp hclose]⟩
    · exact ⟨e2, by rw [CreateExecutableCopy_tempfile_failed actor world w1 w2 path tempFile e2
        hmkdir htemp]⟩
  · exact ⟨e1, by rw [CreateExecutableCopy_mkdir_failed actor world w1 path e1 hmkdir]⟩

/-- C15: staging. For a source file that exists, on a system that refuses none
of the calls and on which the drawn temporary name is free,
`CreateExecutableCopy` returns without error a path inside the directory
`temp` of the plugin home, distinct from the source path, whose file has the
byte content of the source and the permission bits 0700, and the source is
left as it was. If a step fails (the directory creation, the creation of the
temporary file, its close, the copy, the chmod), it returns the empty path
together with the error of that step; staging a path where there is no file
fails. In every case the installed plugins of the Config Store are unchanged
and the only call made on the store is `PluginHome`. -/
theorem CreateExecutableCopy_contract {V : Type} (actor : Actor V) (world : World V)
    (path : String) :
    (∀ src : File, world.files path = some src →
      (∀ call, world.fault call = none) →
      world.files
        (filepathJoin (filepathJoin actor.config.pluginHome "temp") ("" ++ world.tempSuffix)) =
        none →
      (actor.CreateExecutableCopy world path).1 =
        (filepathJoin (filepathJoin actor.config.pluginHome "temp") ("" ++ world.tempSuffix),
          none) ∧
      (actor.CreateExecutableCopy world path).1.1 ≠ path ∧
      (actor.CreateExecutableCopy world path).2.2.files
        (actor.CreateExecutableCopy world path).1.1 =
        some { content := src.content, mode := 0o700 } ∧
      (actor.CreateExecutableCopy world path).2.2.files path = some src) ∧
    (∀ (err : Error) (w1 : World V),
      world.MkdirAll (filepathJoin actor.config.pluginHome "temp") 0o700 = (some err, w1) →
      (actor.CreateExecutableCopy world path).1 = ("", some err)) ∧
    (∀ (err : Error) (w1 w2 : World V) (tempFile : String),
      world.MkdirAll (filepathJoin actor.config.pluginHome "temp") 0o700 = (none, w1) →
      w1.TempFile (filepathJoin actor.config.pluginHome "temp") "" =
        ((tempFile, some err), w2) →
      (actor.CreateExecutableCopy world path).1 = ("", some err)) ∧
    (∀ (err : Error) (w1 w2 w3 : World V) (tempFile : String),
      world.MkdirAll (filepathJoin actor.config.pluginHome "temp") 0o700 = (none, w1) →
      w1.TempFile (filepathJoin actor.config.pluginHome "temp") "" = ((tempFile, none), w2) →
      w2.Close tempFile = (some err, w3) →
      (actor.CreateExecutableCopy world path).1 = ("", some err)) ∧
    (∀ (err : Error) (w1 w2 w3 w4 : World V) (tempFile : String),
      world.MkdirAll (filepathJoin actor.config.pluginHome "temp") 0o700 = (none, w1) →
      w1.TempFile (filepathJoin actor.config.pluginHome "temp") "" = ((tempFile, none), w2) →
      w2.Close tempFile = (none, w3) →
      w3.CopyPathToPath path tempFile = (some err, w4) →
      (actor.CreateExecutableCopy world path).1 = ("", some err)) ∧
    (∀ (err : Error) (w1 w2 w3 w4 w5 : World V) (tempFile : String),
      world.MkdirAll (filepathJoin actor.config.pluginHome "temp") 0o700 = (none, w1) →
      w1.TempFile (filepathJoin actor.config.pluginHome "temp") "" = ((tempFile, none), w2) →
      w2.Close tempFile = (none, w3) →
      w3.CopyPathToPath path tempFile = (none, w4) →
      w4.Chmod tempFile 0o700 = (some err, w5) →
      (actor.CreateExecutableCopy world path).1 = ("", some err)) ∧
    (world.files path = none →
      path ≠
        filepathJoin (filepathJoin actor.config.pluginHome "temp") ("" ++ world.tempSuffix) →
      ∃ err, (actor.CreateExecutableCopy world path).1 = ("", some err)) ∧
    (actor.CreateExecutableCopy world path).2.1.config.plugins = actor.config.plugins ∧
    (actor.CreateExecutableCopy world path).2.1.config.calls =
      actor.config.calls ++ [ConfigCall.PluginHome] := by
  refine ⟨?_, ?_, ?_, ?_, ?_, ?_, ?_, ?_, ?_⟩
  · intro src hsrc hfault hfree
    obtain ⟨h1, h2, h3⟩ := CreateExecutableCopy_no_fault actor world path src hsrc hfault hfree
    refine ⟨h1, ?_, ?_, h3⟩
    · rw [h1]
      intro h
      rw [← h] at hsrc
      rw [hsrc] at hfree
      exact Option.noConfusion hfree
    · rw [h1]
      exact h2
  · intro err w1 hmkdir
    rw [CreateExecutableCopy_mkdir_failed actor world w1 path err hmkdir]
  · intro err w1 w2 tempFile hmkdir htemp
    rw [CreateExecutableCopy_tempfile_failed actor world w1 w2 path tempFile err hmkdir htemp]
  · intro err w1 w2 w3 tempFile hmkdir htemp hclose
    rw [CreateExecutableCopy_close_failed actor world w1 w2 w3 path tempFile err hmkdir htemp
      hclose]
  · intro err w1 w2 w3 w4 tempFile hmkdir htemp hclose hcopy
    rw [CreateExecutableCopy_copy_failed actor world w1 w2 w3 w4 path tempFile err hmkdir htemp
      hclose hcopy]
  · intro err w1 w2 w3 w4 w5 tempFile hmkdir htemp hclose hcopy hchmod
    rw [CreateExecutableCopy_chmod_failed actor world w1 w2 w3 w4 w5 path tempFile err hmkdir
      htemp hclose hcopy hchmod]
  · exact CreateExecutableCopy_missing_source actor world path
  · rw [CreateExecutableCopy_config]
    rfl
  · rw [CreateExecutableCopy_config]
    rfl

/-- Staging the binary at `/tmp/foo` on a system that refuses nothing gives the
copy `/home/plugins/temp/012345678` with the same four bytes and the bits
0700; staging `/tmp/missing`, where there is no file, gives the empty path and
an error. -/
theorem CreateExecutableCopy_contract_witness :
    ((sampleActor []).CreateExecutableCopy (sampleWorld noFault) "/tmp/foo").1 =
      ("/home/plugins/temp/012345678", none) ∧
    ((sampleActor []).CreateExecutableCopy (sampleWorld noFault) "/tmp/foo").2.2.files
      "/home/plugins/temp/012345678" = some { content := [127, 69, 76, 70], mode := 0o700 } ∧
    ((sampleActor []).CreateExecutableCopy (sampleWorld noFault) "/tmp/foo").1.1 ≠ "/tmp/foo" ∧
    ∃ err, ((sampleActor []).CreateExecutableCopy (sampleWorld noFault) "/tmp/missing").1 =
      ("", some err) :=
  ⟨((CreateExecutableCopy_contract (sampleActor []) (sampleWorld noFault) "/tmp/foo").1
      { content := [127, 69, 76, 70], mode := 0o644 } (by decide) (fun _ => rfl) (by decide)).1,
    by decide,
    ((CreateExecutableCopy_contract (sampleActor []) (sampleWorld noFault) "/tmp/foo").1
      { content := [127, 69, 76, 70], mode := 0o644 } (by decide) (fun _ => rfl)
      (by decide)).2.1,
    (CreateExecutableCopy_contract (sampleActor []) (sampleWorld noFault)
      "/tmp/missing").2.2.2.2.2.2.1 (by decide) (by decide)⟩

end pluginaction
